import Mathlib

/-!
Verification of the road-network geometry engine of TrafficSceneRenderer
(way.py, crossing.py, connection.py, road_network.py, vertex.py).

The Python code computes with IEEE doubles and numpy; the embedding works
over `ℚ` for exact arithmetic, with the transcendental primitives
(`sqrt`, `sin`, `cos`, `tan`, `arctan2`, `arccos`) abstracted into a
`Prims` record: every theorem quantifies over the primitives (adding only
the ordering facts of the real functions that a proof actually needs), so
the results hold in particular for the real-number interpretations.
Computations that the source lets degenerate to IEEE `inf`/`nan`
(division by zero) are embedded in `Option ℚ`, where `none` plays the
role of a non-finite value and propagates through arithmetic.
-/

namespace TSR

/-- Abstract numeric primitives standing for the numpy float routines. -/
structure Prims where
  sqrt : ℚ → ℚ
  sin : ℚ → ℚ
  cos : ℚ → ℚ
  tan : ℚ → ℚ
  atan2 : ℚ → ℚ → ℚ
  acos : ℚ → ℚ
  pi : ℚ

/-- `np.hypot` expressed through the abstract square root. -/
def Prims.hypot (P : Prims) (x y : ℚ) : ℚ := P.sqrt (x * x + y * y)

/-- `np.mod(x, 2*np.pi)`: numpy's floored modulo with modulus `2π`. -/
def Prims.mod2pi (P : Prims) (x : ℚ) : ℚ :=
  x - 2 * P.pi * (⌊x / (2 * P.pi)⌋ : ℤ)

/-- `np.round(q)` as an integer: round half to even (banker's rounding). -/
def npRound (q : ℚ) : ℤ :=
  let f := q - (⌊q⌋ : ℚ)
  if f < 1 / 2 then ⌊q⌋
  else if 1 / 2 < f then ⌊q⌋ + 1
  else if Even ⌊q⌋ then ⌊q⌋ else ⌊q⌋ + 1

/-- Python indexing `l[i]` with negative indices counting from the end
(out-of-range reads, which raise in Python, return the default). -/
def getPy (l : List ℚ) (i : ℤ) (d : ℚ) : ℚ :=
  if i < 0 then l.getD (l.length + i).toNat d else l.getD i.toNat d

/-! ## Vertex (vertex.py) -/

/-- `Vertex`: a uniquely indexed planar point (`idx`, `xcoordinate`,
`ycoordinate`); the geodetic-projection path (`latlon`) is outside the
claims. -/
structure VertexM where
  idx : ℤ
  x : ℚ
  y : ℚ
deriving DecidableEq

/-! ## Way (way.py): data model -/

/-- The `WayOptions` fields the geometry engine reads.  The source derives
defaults for them from `maxspeed`/`highway`; here they are plain data with
the same defaults as an urban road. -/
structure WayOptionsM where
  highway : Option String := none
  nlanes : ℤ := 2
  lanewidth : ℚ := 14 / 5
  turnlanes : Option String := none
  linetype : Option String := none
  lineInterval : ℚ := 3
  lineLength : ℚ := 1
deriving DecidableEq

/-- `WayConnection`: the connection link slots of a way. -/
structure WayConnectionM where
  iStart : ℤ := -1
  iEnd : ℤ := -1
  xLeftStart : ℚ := 0
  xRightStart : ℚ := 0
  yLeftStart : ℚ := 0
  yRightStart : ℚ := 0
  xLeftEnd : ℚ := 0
  xRightEnd : ℚ := 0
  yLeftEnd : ℚ := 0
  yRightEnd : ℚ := 0
deriving DecidableEq

/-- `WayCrossing`: the crossing link slots of a way. -/
structure WayCrossingM where
  iStart : ℤ := -1
  iEnd : ℤ := -1
  startLambdaLeft : ℚ := 0
  startLambdaRight : ℚ := 0
  endLambdaLeft : ℚ := 0
  endLambdaRight : ℚ := 0
deriving DecidableEq

/-- A value that may have become IEEE non-finite: `none` stands for
`inf`/`-inf`/`nan`.  Arithmetic propagates `none`; division by zero,
the only source of non-finite values in the modelled code, yields
`none`. -/
def OQ : Type := Option ℚ
deriving DecidableEq

/-- Lift a finite rational. -/
def oq (q : ℚ) : OQ := some q

/-- Addition on possibly non-finite values. -/
def oadd : OQ → OQ → OQ
  | some a, some b => some (a + b)
  | _, _ => none

/-- Subtraction on possibly non-finite values. -/
def osub : OQ → OQ → OQ
  | some a, some b => some (a - b)
  | _, _ => none

/-- Multiplication on possibly non-finite values (note `0 * inf = nan`
in IEEE, so `none` absorbs even multiplication by zero). -/
def omul : OQ → OQ → OQ
  | some a, some b => some (a * b)
  | _, _ => none

/-- Division; a zero divisor produces a non-finite result. -/
def odiv : OQ → OQ → OQ
  | some a, some b => if b = 0 then none else some (a / b)
  | _, _ => none

/-- `np.sqrt` on possibly non-finite values. -/
def osqrt (P : Prims) : OQ → OQ := Option.map P.sqrt

/-- `np.hypot` on possibly non-finite values. -/
def ohypot (P : Prims) (x y : OQ) : OQ := osqrt P (oadd (omul x x) (omul y y))

/-- `np.sign` on possibly non-finite values. -/
def osign : OQ → OQ
  | some a => some (if 0 < a then 1 else if a < 0 then -1 else 0)
  | none => none

/-- Strict comparison `a > b`; comparisons against `nan` are false in
IEEE, which the loop using this comparison relies on. -/
def oGT : OQ → OQ → Bool
  | some a, some b => decide (b < a)
  | _, _ => false

/-- One dashed lane-divider segment `[e0, n0, e1, n1]` of
`Way.generate_lane_lines`. -/
structure Line4 where
  x0 : OQ := oq 0
  y0 : OQ := oq 0
  x1 : OQ := oq 0
  y1 : OQ := oq 0
deriving DecidableEq

/-- `WayPlotData`: the plotting state of a way. -/
structure WayPlotM where
  iInterval : ℕ := 0
  lines : List Line4 := []
  lengths : List OQ := []
  xyline : List (OQ × OQ) := []
deriving DecidableEq

/-- `XYData` of the left/right road boundary. -/
structure XYDataM where
  xData : List OQ := []
  yData : List OQ := []
deriving DecidableEq

/-- `WayParameters`. -/
structure WayParmsM where
  hwidth : ℚ := 0
  offset : List ℚ := []
  connection : WayConnectionM := {}
  crossing : WayCrossingM := {}
  left : XYDataM := {}
  right : XYDataM := {}
  plot : WayPlotM := {}
deriving DecidableEq

/-- `Way`: ordered vertices, their indices, and rendering parameters. -/
structure WayM where
  options : WayOptionsM
  vertices : List VertexM
  ivs : List ℤ
  parms : WayParmsM
deriving DecidableEq

/-- `Way.__init__`: record the vertex indices, start offsets at zero and
derive the half width (`Way._compute_hwidth`). -/
def mkWay (vertices : List VertexM) (options : WayOptionsM) : WayM :=
  { options := options
    vertices := vertices
    ivs := vertices.map VertexM.idx
    parms :=
      { offset := vertices.map (fun _ => 0)
        hwidth := options.lanewidth * (options.nlanes : ℚ) / 2 } }

/-- `Way.split(index)`: the original keeps `vertices[: index + 1]`, the
returned way is a deep copy (hence with all `parms` link state copied)
keeping `vertices[index :]`. -/
def waySplit (w : WayM) (index : ℕ) : WayM × WayM :=
  ( { w with
        vertices := w.vertices.take (index + 1)
        ivs := w.ivs.take (index + 1)
        parms := { w.parms with offset := w.parms.offset.take (index + 1) } }
  , { w with
        vertices := w.vertices.drop index
        ivs := w.ivs.drop index
        parms := { w.parms with offset := w.parms.offset.drop index } } )

/-- `Way.insert_vertex`: index normalisation and range check (raising
`IndexVertexError`, before any mutation, on index 0 or out of range),
then aligned insertion into `vertices`, `ivs` and `offset`, the new
offset interpolated by inverse-distance weighting; reports whether a
start/end crossing must be re-processed. -/
def wayInsertVertex (P : Prims) (w : WayM) (vertex : VertexM) (index : ℤ) :
    Except Unit (WayM × Bool × Bool) :=
  let n : ℕ := w.ivs.length
  let index : ℤ := if index < 0 then index + n else index
  if index = 0 ∨ (index.natAbs : ℤ) ≥ n then .error () else
  let pos : ℕ := (if index < 0 then (n : ℤ) + index else index).toNat
  let vertices := w.vertices.insertIdx pos vertex
  let ivs := w.ivs.insertIdx pos vertex.idx
  let vAt : ℤ → VertexM := fun i =>
    if i < 0 then vertices.getD (vertices.length + i).toNat ⟨0, 0, 0⟩
    else vertices.getD i.toNat ⟨0, 0, 0⟩
  let dist1 := P.hypot ((vAt (index - 1)).x - (vAt index).x)
    ((vAt (index - 1)).y - (vAt index).y)
  let dist2 := P.hypot ((vAt index).x - (vAt (index + 1)).x)
    ((vAt index).y - (vAt (index + 1)).y)
  let newOff := (getPy w.parms.offset (index - 1) 0 * dist2 +
    getPy w.parms.offset index 0 * dist1) / (dist1 + dist2)
  let offPos : ℕ := (if index < 0 then (w.parms.offset.length : ℤ) + index else index).toNat
  let offset := w.parms.offset.insertIdx offPos newOff
  let w' := { w with
    vertices := vertices
    ivs := ivs
    parms := { w.parms with offset := offset } }
  let processStart := index = 1 ∧ w'.parms.crossing.iStart ≥ 0
  let processEnd := index = (ivs.length : ℤ) - 2 ∧ w'.parms.crossing.iEnd ≥ 0
  .ok (w', decide processStart, decide processEnd)

/-- `Way.pop_vertex`: range check (raising before any mutation on index 0
or out of range), re-process flags from the position modulo the length,
then aligned removal from the three lists. -/
def wayPopVertex (w : WayM) (index : ℤ) : Except Unit (WayM × Bool × Bool) :=
  let n : ℕ := w.ivs.length
  if index = 0 ∨ (index.natAbs : ℤ) ≥ (n : ℤ) - 1 then .error () else
  let processStart := index % (n : ℤ) = 1 ∧ w.parms.crossing.iStart ≥ 0
  let processEnd := index % (n : ℤ) = (n : ℤ) - 2 ∧ w.parms.crossing.iEnd ≥ 0
  let pos : ℕ := (if index < 0 then (n : ℤ) + index else index).toNat
  let w' := { w with
    vertices := w.vertices.eraseIdx pos
    ivs := w.ivs.eraseIdx pos
    parms := { w.parms with offset := w.parms.offset.eraseIdx pos } }
  .ok (w', decide processStart, decide processEnd)

/-- Offset argument of `Way.apply_offset` / the module-level
`apply_offset`: a single scalar or a list. -/
inductive OffsetSpec where
  | scalar (v : ℚ)
  | ofList (vs : List ℚ)
deriving DecidableEq

/-- `Way.apply_offset(offset)`: compute the per-vertex increments
(a 2-element list is interpolated along cumulative arc length, an
N-element list is taken as is, and a scalar yields the literal list
`[1 for _ in range(len(self.parms.offset))]` — the increment is 1,
not the scalar), then add them to the stored offsets in place. -/
def wayApplyOffset (P : Prims) (w : WayM) (offset : OffsetSpec) : WayM :=
  let newOffset : List ℚ :=
    match offset with
    | .ofList vs =>
      if vs.length = 2 then
        let xy := w.vertices.map (fun v => (v.x, v.y))
        let dists := (List.range (xy.length - 1)).map (fun i =>
          P.hypot ((xy.getD (i + 1) (0, 0)).1 - (xy.getD i (0, 0)).1)
            ((xy.getD (i + 1) (0, 0)).2 - (xy.getD i (0, 0)).2))
        let cumulative := 0 :: (List.range dists.length).map (fun i =>
          ((dists.take (i + 1)).foldl (· + ·) 0))
        let clast := cumulative.getLast (by simp [cumulative])
        cumulative.map (fun c =>
          vs.getD 0 0 + c / clast * (vs.getD 1 0 - vs.getD 0 0))
      else vs
    | .scalar _ => w.parms.offset.map (fun _ => 1)
  { w with parms := { w.parms with
      offset := (List.range w.parms.offset.length).map (fun i =>
        w.parms.offset.getD i 0 + newOffset.getD i 0) } }

/-! ## Concrete primitive instances used for evaluation -/

/-- A concrete `Prims` instance (the theorems below hold for every
instance satisfying their stated order facts; this one is used to
evaluate the model on concrete inputs). -/
def prims0 : Prims :=
  { sqrt := fun _ => 0
    sin := fun _ => 0
    cos := fun _ => 0
    tan := fun _ => 0
    atan2 := fun _ _ => 0
    acos := fun _ => 0
    pi := 3 }

/-- A `Prims` instance whose square root is the identity (handy when a
positive length is needed from integer-coordinate inputs). -/
def primsId : Prims :=
  { sqrt := fun x => x
    sin := fun _ => 0
    cos := fun _ => 0
    tan := fun _ => 0
    atan2 := fun _ _ => 0
    acos := fun _ => 0
    pi := 3 }

/-! ## Claims C1, C4, C9 about the Way operations -/

/-- The alignment invariant of a way: the stored per-vertex offsets and
the vertex-index list both track the vertex list. -/
def WayInv (w : WayM) : Prop :=
  w.parms.offset.length = w.vertices.length ∧ w.ivs.length = w.vertices.length

/-- C1 (code bug): `Way.apply_offset` with a single scalar `s` is claimed
to add exactly `s` to every stored offset; the code builds the increment
list as `[1 for _ in range(len(self.parms.offset))]` and therefore adds
`1` regardless of `s`.  Evaluated at the failing input `s = 2` on a
two-vertex way with zero offsets: the result is `[1, 1]`, not `[2, 2]`. -/
theorem claim_C1_failing_eval :
    (wayApplyOffset prims0 (mkWay [⟨0, 0, 0⟩, ⟨1, 1, 0⟩] {}) (.scalar 2)).parms.offset
      = [1, 1] ∧ ([1, 1] : List ℚ) ≠ [2, 2] := by
  constructor
  · simp [wayApplyOffset, mkWay, List.range_succ]
  · simp

/-- A way carrying non-default link state, as it arises once a crossing
or connection has registered itself on the way. -/
def linkedWay : WayM :=
  { mkWay [⟨0, 0, 0⟩, ⟨1, 1, 0⟩, ⟨2, 2, 0⟩] {} with
    parms := { (mkWay [⟨0, 0, 0⟩, ⟨1, 1, 0⟩, ⟨2, 2, 0⟩] {}).parms with
      crossing := { iStart := 3, startLambdaLeft := 1 / 2 }
      connection := { iEnd := 5 } } }

/-- C4 counterexample: `Way.split` starts from `copy.deepcopy(self)`, so
the returned way inherits the original's crossing/connection link state
instead of being left at the default unset values (`i_start = -1`,
zero lambdas). -/
theorem claim_C4_counterexample :
    ¬((waySplit linkedWay 1).2.parms.crossing.iStart = -1 ∧
      (waySplit linkedWay 1).2.parms.connection.iEnd = -1 ∧
      (waySplit linkedWay 1).2.parms.crossing.startLambdaLeft = 0) := by
  intro h
  have : (waySplit linkedWay 1).2.parms.crossing.iStart = 3 := rfl
  omega

/-- C4 (amended): for a way with at least 3 vertices and `0 < i < len-1`,
`split(i)` leaves the original with exactly the vertices and aligned
offsets up to and including index `i`, returns a way with exactly the
vertices and aligned offsets from index `i` onward (both retain the
vertex at `i`), and the returned way's crossing and connection link
state is copied unchanged from the original (a deep copy), not reset to
its default unset values. -/
theorem claim_C4_split (w : WayM) (i : ℕ) (hinv : WayInv w)
    (h0 : 0 < i) (hi : i < w.vertices.length - 1) :
    ((waySplit w i).1.vertices.length = i + 1 ∧
      (∀ j : ℕ, j ≤ i → (waySplit w i).1.vertices[j]? = w.vertices[j]? ∧
        (waySplit w i).1.parms.offset[j]? = w.parms.offset[j]? ∧
        (waySplit w i).1.ivs[j]? = w.ivs[j]?)) ∧
    ((waySplit w i).2.vertices.length = w.vertices.length - i ∧
      (∀ j : ℕ, (waySplit w i).2.vertices[j]? = w.vertices[i + j]? ∧
        (waySplit w i).2.parms.offset[j]? = w.parms.offset[i + j]? ∧
        (waySplit w i).2.ivs[j]? = w.ivs[i + j]?)) ∧
    (waySplit w i).1.vertices[i]? = w.vertices[i]? ∧
    (waySplit w i).2.vertices[0]? = w.vertices[i]? ∧
    (waySplit w i).2.parms.crossing = w.parms.crossing ∧
    (waySplit w i).2.parms.connection = w.parms.connection := by
  obtain ⟨hoff, hivs⟩ := hinv
  refine ⟨⟨?_, fun j hj => ⟨?_, ?_, ?_⟩⟩, ⟨?_, fun j => ⟨?_, ?_, ?_⟩⟩, ?_, ?_, rfl, rfl⟩
  · simp only [waySplit, List.length_take]
    omega
  · exact List.getElem?_take_of_lt (by omega)
  · exact List.getElem?_take_of_lt (by omega)
  · exact List.getElem?_take_of_lt (by omega)
  · simp only [waySplit, List.length_drop]
  · exact List.getElem?_drop _ _ _
  · exact List.getElem?_drop _ _ _
  · exact List.getElem?_drop _ _ _
  · exact List.getElem?_take_of_lt (by omega)
  · have h := List.getElem?_drop w.vertices i 0
    rw [Nat.add_zero] at h
    exact h

/-- Witness for C4 on a concrete 3-vertex way split at index 1. -/
theorem claim_C4_split_witness :
    (waySplit linkedWay 1).1.vertices.length = 2 ∧
      (waySplit linkedWay 1).2.parms.crossing = linkedWay.parms.crossing := by
  have h := claim_C4_split linkedWay 1 ⟨rfl, rfl⟩ (by norm_num) (by norm_num [linkedWay, mkWay])
  exact ⟨h.1.1, h.2.2.2.2.1⟩

/-- C9: the alignment invariant `len(offset) = len(vertices) = len(ivs)`
holds after `Way.__init__` and is preserved by `split` (both resulting
ways), by `insert_vertex` and `pop_vertex` (whose index errors are
raised before any mutation, so the error case leaves the way unchanged),
and by `apply_offset`. -/
theorem claim_C9_way_invariant (P : Prims) (vs : List VertexM) (opts : WayOptionsM)
    (w : WayM) (v : VertexM) (i : ℕ) (j : ℤ) (spec : OffsetSpec) :
    WayInv (mkWay vs opts) ∧
    (WayInv w → WayInv (waySplit w i).1 ∧ WayInv (waySplit w i).2) ∧
    (∀ w' b1 b2, WayInv w → wayInsertVertex P w v j = .ok (w', b1, b2) → WayInv w') ∧
    (∀ w' b1 b2, WayInv w → wayPopVertex w j = .ok (w', b1, b2) → WayInv w') ∧
    (WayInv w → WayInv (wayApplyOffset P w spec)) := by
  refine ⟨⟨by simp [mkWay], by simp [mkWay]⟩, ?_, ?_, ?_, ?_⟩
  · rintro ⟨h1, h2⟩
    exact ⟨⟨by simp [waySplit]; omega, by simp [waySplit]; omega⟩,
      ⟨by simp [waySplit]; omega, by simp [waySplit]; omega⟩⟩
  · rintro w' b1 b2 ⟨h1, h2⟩ hok
    simp only [wayInsertVertex] at hok
    set J : ℤ := if j < 0 then j + (w.ivs.length : ℤ) else j with hJdef
    by_cases hc : J = 0 ∨ ((J.natAbs : ℤ) ≥ (w.ivs.length : ℤ))
    · rw [if_pos hc] at hok
      exact absurd hok (by simp)
    · rw [if_neg hc] at hok
      push_neg at hc
      obtain ⟨hne, hlt⟩ := hc
      simp only [Except.ok.injEq, Prod.mk.injEq] at hok
      obtain ⟨hw, -, -⟩ := hok
      subst hw
      have hb1 : (if J < 0 then (w.ivs.length : ℤ) + J else J).toNat ≤ w.vertices.length := by
        rcases lt_or_le J 0 with hJ | hJ
        · rw [if_pos hJ]; omega
        · rw [if_neg (not_lt.mpr hJ)]; omega
      have hb2 : (if J < 0 then (w.parms.offset.length : ℤ) + J else J).toNat ≤
          w.parms.offset.length := by
        rcases lt_or_le J 0 with hJ | hJ
        · rw [if_pos hJ]; omega
        · rw [if_neg (not_lt.mpr hJ)]; omega
      have hb3 : (if J < 0 then (w.ivs.length : ℤ) + J else J).toNat ≤ w.ivs.length := by
        rcases lt_or_le J 0 with hJ | hJ
        · rw [if_pos hJ]; omega
        · rw [if_neg (not_lt.mpr hJ)]; omega
      constructor
      · simp only [List.length_insertIdx _ _ hb2, List.length_insertIdx _ _ hb1]
        omega
      · simp only [List.length_insertIdx _ _ hb3, List.length_insertIdx _ _ hb1]
        omega
  · rintro w' b1 b2 ⟨h1, h2⟩ hok
    simp only [wayPopVertex] at hok
    by_cases hc : j = 0 ∨ ((j.natAbs : ℤ) ≥ (w.ivs.length : ℤ) - 1)
    · rw [if_pos hc] at hok
      exact absurd hok (by simp)
    · rw [if_neg hc] at hok
      push_neg at hc
      obtain ⟨hne, hlt⟩ := hc
      simp only [Except.ok.injEq, Prod.mk.injEq] at hok
      obtain ⟨hw, -, -⟩ := hok
      subst hw
      have hb1 : (if j < 0 then (w.ivs.length : ℤ) + j else j).toNat < w.vertices.length := by
        rcases lt_or_le j 0 with hJ | hJ
        · rw [if_pos hJ]; omega
        · rw [if_neg (not_lt.mpr hJ)]; omega
      have hb2 : (if j < 0 then (w.ivs.length : ℤ) + j else j).toNat <
          w.parms.offset.length := by
        rcases lt_or_le j 0 with hJ | hJ
        · rw [if_pos hJ]; omega
        · rw [if_neg (not_lt.mpr hJ)]; omega
      have hb3 : (if j < 0 then (w.ivs.length : ℤ) + j else j).toNat < w.ivs.length := by
        rcases lt_or_le j 0 with hJ | hJ
        · rw [if_pos hJ]; omega
        · rw [if_neg (not_lt.mpr hJ)]; omega
      constructor
      · simp only [List.length_eraseIdx_of_lt hb2, List.length_eraseIdx_of_lt hb1]
        omega
      · simp only [List.length_eraseIdx_of_lt hb3, List.length_eraseIdx_of_lt hb1]
        omega
  · rintro ⟨h1, h2⟩
    refine ⟨?_, by simpa [wayApplyOffset] using h2⟩
    simp only [wayApplyOffset, List.length_map, List.length_range]
    exact h1

/-- Witness for C9 at a concrete three-vertex way: the invariant holds
at construction, after `split(1)` and after `apply_offset(1)`. -/
theorem claim_C9_way_invariant_witness :
    WayInv (mkWay [⟨0, 0, 0⟩, ⟨1, 1, 0⟩, ⟨2, 2, 0⟩] {}) ∧
    WayInv (waySplit (mkWay [⟨0, 0, 0⟩, ⟨1, 1, 0⟩, ⟨2, 2, 0⟩] {}) 1).1 ∧
    WayInv (wayApplyOffset prims0 (mkWay [⟨0, 0, 0⟩, ⟨1, 1, 0⟩, ⟨2, 2, 0⟩] {})
      (.scalar 1)) := by
  have h := claim_C9_way_invariant prims0 [⟨0, 0, 0⟩, ⟨1, 1, 0⟩, ⟨2, 2, 0⟩] {}
    (mkWay [⟨0, 0, 0⟩, ⟨1, 1, 0⟩, ⟨2, 2, 0⟩] {}) ⟨3, 1, 1⟩ 1 1 (.scalar 1)
  exact ⟨h.1, (h.2.1 h.1).1, h.2.2.2.2 h.1⟩

/-! ## Crossing (crossing.py)

The `Crossing` operations read from their ways only the outward direction
at the hub (`Crossing.direction`), the half width, and the vertex count;
`Crossing.__init__` snapshots the polar angles from the directions.  The
state below carries those reads as fields (`CrossingGeo`), which is
faithful whenever the ways and the hub vertex are not mutated between
calls — the premise of the idempotence claim.  Divisions that the source
leaves to degenerate to IEEE non-finite values (coincident consecutive
vertices, parallel approach lines) are total on `ℚ` here (`x / 0 = 0`);
no claim below depends on their value. -/

/-- `CornerInfo`. -/
structure CornerInfoM where
  radius : ℚ
  circleX : ℚ
  circleY : ℚ
  lambdaLeft : ℚ
  lambdaRight : ℚ
  iWay2 : ℕ
deriving DecidableEq

/-- `StartDirection`. -/
structure StartDirectionM where
  xInit : ℚ
  yInit : ℚ
  xDir : ℚ
  yDir : ℚ
deriving DecidableEq

/-- `IntersectionWays`. -/
structure IntersectionWaysM where
  x : ℚ
  y : ℚ
  lambdaLeft : ℚ
  lambdaRight : ℚ
  way1 : StartDirectionM
  way2 : StartDirectionM
deriving DecidableEq

/-- The construction-time snapshot of everything a `Crossing` reads from
its hub vertex and its (angle-sorted) ways: outward directions, polar
angles (`np.arctan2(dx, dy)`), half widths, vertex counts and the
at-start flags. -/
structure CrossingGeo where
  nways : ℕ
  vertexX : ℚ
  vertexY : ℚ
  dirX : ℕ → ℚ
  dirY : ℕ → ℚ
  hwidth : ℕ → ℚ
  nVertices : ℕ → ℕ
  atStart : ℕ → Bool
  angles : ℕ → ℚ

/-- Index of the next way in clockwise order (`i + 1` wrapping to 0), as
computed in `compute_corner_info` and `process`. -/
def succIdx (n i : ℕ) : ℕ := if i < n - 1 then i + 1 else 0

/-- Inverse of `succIdx` on `range n`: the corner whose second way is `j`. -/
def prevIdx (n j : ℕ) : ℕ := if j = 0 then n - 1 else j - 1

/-- `Crossing.start_and_direction`. -/
def startAndDirection (P : Prims) (g : CrossingGeo) (i : ℕ) (offset : ℚ)
    (left : Bool) : StartDirectionM :=
  let xd := g.dirX i
  let yd := g.dirY i
  let absdxy := P.hypot xd yd
  let xoffset := -yd / absdxy * offset
  let yoffset := xd / absdxy * offset
  if left then ⟨g.vertexX + xoffset, g.vertexY + yoffset, xd, yd⟩
  else ⟨g.vertexX - xoffset, g.vertexY - yoffset, xd, yd⟩

/-- `Crossing.compute_intersection`: the 2×2 linear solve
(`np.linalg.solve`, written out by Cramer's rule) for the meeting point
of the two offset approach lines. -/
def computeIntersection (P : Prims) (g : CrossingGeo) (iWay1 iWay2 : ℕ)
    (offset1 offset2 : ℚ) : IntersectionWaysM :=
  let way1 := startAndDirection P g iWay1 offset1 false
  let way2 := startAndDirection P g iWay2 offset2 true
  let det := way1.xDir * -way2.yDir - -way2.xDir * way1.yDir
  let vx := way2.xInit - way1.xInit
  let vy := way2.yInit - way1.yInit
  let sol0 := (vx * -way2.yDir - -way2.xDir * vy) / det
  let sol1 := (way1.xDir * vy - way1.yDir * vx) / det
  { x := way1.xInit + sol0 * way1.xDir
    y := way1.yInit + sol0 * way1.yDir
    lambdaLeft := sol1
    lambdaRight := sol0
    way1 := way1
    way2 := way2 }

/-- `Crossing.compute_corner_info`, with the two state reads it makes
(`options.radius` and `parms.circles.radii[i_way1]`) passed explicitly.
The corner at an angle of at least 180° degenerates to the hub with
radius `hwidth`; otherwise the tangent circle is solved, and if a trim
fraction overshoots its bound (0.45 for 2-vertex ways, else 0.9) the
radius is reduced from the road-edge intersection and solved again. -/
def computeCornerInfo (P : Prims) (g : CrossingGeo) (optRadius radiiEntry : ℚ)
    (iWay1 : ℕ) : CornerInfoM :=
  let iWay2 := succIdx g.nways iWay1
  let angle := P.mod2pi (g.angles iWay2 - g.angles iWay1)
  if angle ≥ P.pi then
    { radius := g.hwidth iWay1
      circleX := g.vertexX
      circleY := g.vertexY
      lambdaLeft := 0
      lambdaRight := 0
      iWay2 := iWay2 }
  else
    let radius := if radiiEntry < 0 then optRadius else radiiEntry
    let inter := computeIntersection P g iWay1 iWay2
      (g.hwidth iWay1 + radius) (g.hwidth iWay2 + radius)
    let maxRight : ℚ := if g.nVertices iWay1 = 2 then 45 / 100 else 9 / 10
    let maxLeft : ℚ := if g.nVertices iWay2 = 2 then 45 / 100 else 9 / 10
    if inter.lambdaRight > maxRight ∨ inter.lambdaLeft > maxLeft then
      let roadside := computeIntersection P g iWay1 iWay2
        (g.hwidth iWay1) (g.hwidth iWay2)
      let dist := min
        (P.hypot (roadside.way1.xInit + maxRight * roadside.way1.xDir - roadside.x)
          (roadside.way1.yInit + maxRight * roadside.way1.yDir - roadside.y))
        (P.hypot (roadside.way2.xInit + maxLeft * roadside.way2.xDir - roadside.x)
          (roadside.way2.yInit + maxLeft * roadside.way2.yDir - roadside.y))
      let radius := dist * P.tan (angle / 2)
      let inter := computeIntersection P g iWay1 iWay2
        (g.hwidth iWay1 + radius) (g.hwidth iWay2 + radius)
      { radius := radius
        circleX := inter.x
        circleY := inter.y
        lambdaLeft := inter.lambdaLeft
        lambdaRight := inter.lambdaRight
        iWay2 := iWay2 }
    else
      { radius := radius
        circleX := inter.x
        circleY := inter.y
        lambdaLeft := inter.lambdaLeft
        lambdaRight := inter.lambdaRight
        iWay2 := iWay2 }

/-- The mutable state of a `Crossing`: the geometry snapshot, the options
`process` reads, and the `parms` arrays it writes (arrays are modelled as
total functions whose values beyond the array length are never read). -/
structure CrossingState where
  geo : CrossingGeo
  zebra : Bool := false
  allFootway : Bool := false
  optRadius : ℚ := -1
  nCornerPieces : ℕ := 20
  defaultRadius : ℚ := 2
  defaultRadiusFootway : ℚ := 1 / 100
  roundabout : Bool := false
  roundaboutOuterRadius : ℚ := 6
  radii : ℕ → ℚ := fun _ => -1
  circleXData : ℕ → ℚ := fun _ => 0
  circleYData : ℕ → ℚ := fun _ => 0
  lambdaLeft : ℕ → ℚ := fun _ => 0
  lambdaRight : ℕ → ℚ := fun _ => 0
  plotX : ℕ → ℕ → ℚ := fun _ _ => 0
  plotY : ℕ → ℕ → ℚ := fun _ _ => 0
  wayStartLL : ℕ → ℚ := fun _ => 0
  wayStartLR : ℕ → ℚ := fun _ => 0
  wayEndLL : ℕ → ℚ := fun _ => 0
  wayEndLR : ℕ → ℚ := fun _ => 0
  processed : Bool := false

/-- `Crossing.compute_radius`: explicit override if set (`!= -1`), else
`0.01` for a zebra junction, else the footway constant if every incident
way is a footway, else the default vehicle radius. -/
def computeRadius (s : CrossingState) : ℚ :=
  if s.optRadius ≠ -1 then s.optRadius
  else if s.zebra then 1 / 100
  else if s.allFootway then s.defaultRadiusFootway
  else s.defaultRadius

/-- Value `k` of `np.linspace(t0, t1, m)` (for `m = 1` numpy returns
`[t0]`, matched here by `ℚ`'s `x / 0 = 0`). -/
def linspaceVal (t0 t1 : ℚ) (m k : ℕ) : ℚ :=
  t0 + (t1 - t0) * (k : ℚ) / ((m : ℚ) - 1)

/-- The x-coordinates of the crossing boundary polygon as written by the
two loops of `Crossing.process` (non-roundabout): per way-column, the
trim-adjusted approach point, the sampled corner arc, and the next way's
trim-adjusted approach point; cells outside the written array keep their
previous value. -/
def nonRoundaboutPlotX (P : Prims) (g : CrossingGeo) (ncp : ℕ)
    (radii circX lamL lamR : ℕ → ℚ) (oldX : ℕ → ℕ → ℚ) : ℕ → ℕ → ℚ :=
  fun row col =>
    if col < g.nways ∧ row < ncp + 2 then
      let j := succIdx g.nways col
      let angle := P.mod2pi (g.angles j - g.angles col)
      if row = 0 then
        let way1 := startAndDirection P g col (g.hwidth col) false
        way1.xInit + way1.xDir * max (lamL col) (lamR col)
      else if row = ncp + 1 then
        let way2 := startAndDirection P g j (g.hwidth j) true
        way2.xInit + way2.xDir * max (lamL j) (lamR j)
      else
        let theta0 := if angle ≥ P.pi then g.angles col + P.pi / 2
          else g.angles col - P.pi / 2
        let theta1 := theta0 - P.pi + angle
        circX col + P.sin (linspaceVal theta0 theta1 ncp (row - 1)) * radii col
    else oldX row col

/-- The y-coordinates corresponding to `nonRoundaboutPlotX` (the arc uses
`cos`, the approach points the `y` components). -/
def nonRoundaboutPlotY (P : Prims) (g : CrossingGeo) (ncp : ℕ)
    (radii circY lamL lamR : ℕ → ℚ) (oldY : ℕ → ℕ → ℚ) : ℕ → ℕ → ℚ :=
  fun row col =>
    if col < g.nways ∧ row < ncp + 2 then
      let j := succIdx g.nways col
      let angle := P.mod2pi (g.angles j - g.angles col)
      if row = 0 then
        let way1 := startAndDirection P g col (g.hwidth col) false
        way1.yInit + way1.yDir * max (lamL col) (lamR col)
      else if row = ncp + 1 then
        let way2 := startAndDirection P g j (g.hwidth j) true
        way2.yInit + way2.yDir * max (lamL j) (lamR j)
      else
        let theta0 := if angle ≥ P.pi then g.angles col + P.pi / 2
          else g.angles col - P.pi / 2
        let theta1 := theta0 - P.pi + angle
        circY col + P.cos (linspaceVal theta0 theta1 ncp (row - 1)) * radii col
    else oldY row col

/-- The non-roundabout branch of `Crossing.process`: the corner loop
(each corner reads only its own `radii` entry, written after the read),
the boundary-polygon loop, and the lambda write-back onto the ways. -/
def processNonRoundabout (P : Prims) (s : CrossingState) : CrossingState :=
  let n := s.geo.nways
  let ci : ℕ → CornerInfoM := fun i =>
    computeCornerInfo P s.geo s.optRadius (s.radii i) i
  let radii' : ℕ → ℚ := fun i => if i < n then (ci i).radius else s.radii i
  let circX' : ℕ → ℚ := fun i => if i < n then (ci i).circleX else s.circleXData i
  let circY' : ℕ → ℚ := fun i => if i < n then (ci i).circleY else s.circleYData i
  let lamR' : ℕ → ℚ := fun i => if i < n then (ci i).lambdaRight else s.lambdaRight i
  let lamL' : ℕ → ℚ := fun j =>
    if j < n then (ci (prevIdx n j)).lambdaLeft else s.lambdaLeft j
  { s with
    radii := radii'
    circleXData := circX'
    circleYData := circY'
    lambdaLeft := lamL'
    lambdaRight := lamR'
    plotX := nonRoundaboutPlotX P s.geo s.nCornerPieces radii' circX' lamL' lamR' s.plotX
    plotY := nonRoundaboutPlotY P s.geo s.nCornerPieces radii' circY' lamL' lamR' s.plotY
    wayStartLL := fun i => if i < n ∧ s.geo.atStart i then lamL' i else s.wayStartLL i
    wayStartLR := fun i => if i < n ∧ s.geo.atStart i then lamR' i else s.wayStartLR i
    wayEndLL := fun i => if i < n ∧ ¬s.geo.atStart i then lamL' i else s.wayEndLL i
    wayEndLR := fun i => if i < n ∧ ¬s.geo.atStart i then lamR' i else s.wayEndLR i
    processed := true }

/-- `correct_angle`: shift the first angle by `±2π` so that the sweep to
the second angle is below π (`big_angle = False`) or above π
(`big_angle = True`). -/
def correctAngle (P : Prims) (angle1 angle2 : ℚ) (bigAngle : Bool) : ℚ :=
  if angle1 + P.pi < angle2 ∧ ¬bigAngle then angle1 + 2 * P.pi
  else if angle1 - P.pi > angle2 ∧ ¬bigAngle then angle1 - 2 * P.pi
  else if (angle1 < angle2 ∧ angle2 < angle1 + P.pi) ∧ bigAngle then angle1 + 2 * P.pi
  else if (angle1 - P.pi < angle2 ∧ angle2 < angle1) ∧ bigAngle then angle1 - 2 * P.pi
  else angle1

/-- `Crossing.compute_corner_info_roundabout`: tangent circle of the way
against the outer roundabout circle, via the quadratic in the
travel-distance parameter (positive root). -/
def computeCornerInfoRoundabout (P : Prims) (g : CrossingGeo)
    (optRadius outerRadius : ℚ) (iWay : ℕ) (left : Bool) : CornerInfoM :=
  let radius := optRadius
  let way := startAndDirection P g iWay (g.hwidth iWay + radius) left
  let sq := way.xDir ^ 2 + way.yDir ^ 2
  let lin := 2 * ((way.xInit - g.vertexX) * way.xDir + (way.yInit - g.vertexY) * way.yDir)
  let cst := (way.xInit - g.vertexX) ^ 2 + (way.yInit - g.vertexY) ^ 2 -
    (outerRadius + radius) ^ 2
  let lam := (-lin + P.sqrt (lin ^ 2 - 4 * sq * cst)) / (2 * sq)
  { radius := radius
    lambdaRight := lam
    lambdaLeft := lam
    iWay2 := 0
    circleX := way.xInit + way.xDir * lam
    circleY := way.yInit + way.yDir * lam }

/-- The circle-radius array of `Crossing.process_roundabout`: slot
`3i` holds way `i`'s right tangent circle, slot `3i+1` the outer circle,
and slot `3i-1` (wrapping to the last slot for `i = 0`, as numpy's
negative indexing does) way `i`'s left tangent circle. -/
def roundaboutCircleRadii (P : Prims) (g : CrossingGeo)
    (optRadius outerRadius : ℚ) : ℕ → ℚ := fun idx =>
  if idx < 3 * g.nways then
    if idx % 3 = 1 then outerRadius
    else if idx % 3 = 0 then
      (computeCornerInfoRoundabout P g optRadius outerRadius (idx / 3) false).radius
    else
      (computeCornerInfoRoundabout P g optRadius outerRadius
        ((idx / 3 + 1) % g.nways) true).radius
  else -1

/-- The circle-center x-coordinates of `Crossing.process_roundabout`
(slot layout as in `roundaboutCircleRadii`; the outer circle is centred
on the hub vertex). -/
def roundaboutCircleX (P : Prims) (g : CrossingGeo)
    (optRadius outerRadius : ℚ) : ℕ → ℚ := fun idx =>
  if idx < 3 * g.nways then
    if idx % 3 = 1 then g.vertexX
    else if idx % 3 = 0 then
      (computeCornerInfoRoundabout P g optRadius outerRadius (idx / 3) false).circleX
    else
      (computeCornerInfoRoundabout P g optRadius outerRadius
        ((idx / 3 + 1) % g.nways) true).circleX
  else 0

/-- The circle-center y-coordinates of `Crossing.process_roundabout`. -/
def roundaboutCircleY (P : Prims) (g : CrossingGeo)
    (optRadius outerRadius : ℚ) : ℕ → ℚ := fun idx =>
  if idx < 3 * g.nways then
    if idx % 3 = 1 then g.vertexY
    else if idx % 3 = 0 then
      (computeCornerInfoRoundabout P g optRadius outerRadius (idx / 3) false).circleY
    else
      (computeCornerInfoRoundabout P g optRadius outerRadius
        ((idx / 3 + 1) % g.nways) true).circleY
  else 0

/-- Sample `k` of the x-data of `Crossing.roundabout_corner`: a
three-arc path (tangent-in circle, outer-circle arc, tangent-out circle,
each sampled with `n_corner_pieces` points). -/
def roundaboutCornerX (P : Prims) (g : CrossingGeo) (optRadius outerRadius : ℚ)
    (circX circY : ℕ → ℚ) (ncp : ℕ) (iWay1 iWay2 : ℕ) (bigAngle : Bool)
    (radius : ℚ) : ℕ → ℚ := fun k =>
  let beginRadius := optRadius + outerRadius - radius
  let way1 := startAndDirection P g iWay1 0 true
  let way2 := startAndDirection P g iWay2 0 true
  let idx2 := (3 * iWay2 + 3 * g.nways - 1) % (3 * g.nways)
  let thetaA1 := P.atan2 (g.vertexX - circX (3 * iWay1)) (g.vertexY - circY (3 * iWay1))
  let thetaA0 := correctAngle P (P.atan2 (-way1.yDir) way1.xDir) thetaA1 bigAngle
  let thetaB1 := P.atan2 (circX idx2 - g.vertexX) (circY idx2 - g.vertexY)
  let thetaB0 := correctAngle P (P.mod2pi thetaA1 - P.pi) thetaB1 bigAngle
  let thetaC1 := P.atan2 way2.yDir (-way2.xDir)
  let thetaC0 := correctAngle P (P.mod2pi thetaB1 - P.pi) thetaC1 bigAngle
  if k < ncp then
    circX (3 * iWay1) + P.sin (linspaceVal thetaA0 thetaA1 ncp k) * beginRadius
  else if k < 2 * ncp then
    g.vertexX + P.sin (linspaceVal thetaB0 thetaB1 ncp (k - ncp)) * radius
  else
    circX idx2 + P.sin (linspaceVal thetaC0 thetaC1 ncp (k - 2 * ncp)) * beginRadius

/-- Sample `k` of the y-data of `Crossing.roundabout_corner`. -/
def roundaboutCornerY (P : Prims) (g : CrossingGeo) (optRadius outerRadius : ℚ)
    (circX circY : ℕ → ℚ) (ncp : ℕ) (iWay1 iWay2 : ℕ) (bigAngle : Bool)
    (radius : ℚ) : ℕ → ℚ := fun k =>
  let beginRadius := optRadius + outerRadius - radius
  let way1 := startAndDirection P g iWay1 0 true
  let way2 := startAndDirection P g iWay2 0 true
  let idx2 := (3 * iWay2 + 3 * g.nways - 1) % (3 * g.nways)
  let thetaA1 := P.atan2 (g.vertexX - circX (3 * iWay1)) (g.vertexY - circY (3 * iWay1))
  let thetaA0 := correctAngle P (P.atan2 (-way1.yDir) way1.xDir) thetaA1 bigAngle
  let thetaB1 := P.atan2 (circX idx2 - g.vertexX) (circY idx2 - g.vertexY)
  let thetaB0 := correctAngle P (P.mod2pi thetaA1 - P.pi) thetaB1 bigAngle
  let thetaC1 := P.atan2 way2.yDir (-way2.xDir)
  let thetaC0 := correctAngle P (P.mod2pi thetaB1 - P.pi) thetaC1 bigAngle
  if k < ncp then
    circY (3 * iWay1) + P.cos (linspaceVal thetaA0 thetaA1 ncp k) * beginRadius
  else if k < 2 * ncp then
    g.vertexY + P.cos (linspaceVal thetaB0 thetaB1 ncp (k - ncp)) * radius
  else
    circY idx2 + P.cos (linspaceVal thetaC0 thetaC1 ncp (k - 2 * ncp)) * beginRadius

/-- The boundary x-coordinates written by `Crossing.process_roundabout`:
per way-column the trim-adjusted approach point, the three-arc
`roundabout_corner` path, and the next way's approach point (the plot
arrays are freshly allocated as zeros, so unwritten cells are 0). -/
def roundaboutPlotX (P : Prims) (g : CrossingGeo) (optRadius outerRadius : ℚ)
    (ncp : ℕ) (lamL lamR circX circY : ℕ → ℚ) : ℕ → ℕ → ℚ :=
  fun row col =>
    if col < g.nways ∧ row < 3 * ncp + 2 then
      let j := succIdx g.nways col
      if row = 0 then
        let way1 := startAndDirection P g col (g.hwidth col) false
        way1.xInit + way1.xDir * max (lamL col) (lamR col)
      else if row = 3 * ncp + 1 then
        let way2 := startAndDirection P g j (g.hwidth j) true
        way2.xInit + way2.xDir * max (lamL j) (lamR j)
      else
        roundaboutCornerX P g optRadius outerRadius circX circY ncp col j false
          outerRadius (row - 1)
    else 0

/-- The boundary y-coordinates written by `Crossing.process_roundabout`. -/
def roundaboutPlotY (P : Prims) (g : CrossingGeo) (optRadius outerRadius : ℚ)
    (ncp : ℕ) (lamL lamR circX circY : ℕ → ℚ) : ℕ → ℕ → ℚ :=
  fun row col =>
    if col < g.nways ∧ row < 3 * ncp + 2 then
      let j := succIdx g.nways col
      if row = 0 then
        let way1 := startAndDirection P g col (g.hwidth col) false
        way1.yInit + way1.yDir * max (lamL col) (lamR col)
      else if row = 3 * ncp + 1 then
        let way2 := startAndDirection P g j (g.hwidth j) true
        way2.yInit + way2.yDir * max (lamL j) (lamR j)
      else
        roundaboutCornerY P g optRadius outerRadius circX circY ncp col j false
          outerRadius (row - 1)
    else 0

/-- `Crossing.process_roundabout`: rebuild the circle arrays, store the
(equal) left/right lambdas from each way's right tangent circle, write
the boundary polygon and the lambda write-back, and mark processed. -/
def processRoundabout (P : Prims) (s : CrossingState) : CrossingState :=
  let n := s.geo.nways
  let rr := roundaboutCircleRadii P s.geo s.optRadius s.roundaboutOuterRadius
  let rx := roundaboutCircleX P s.geo s.optRadius s.roundaboutOuterRadius
  let ry := roundaboutCircleY P s.geo s.optRadius s.roundaboutOuterRadius
  let lamR' : ℕ → ℚ := fun i =>
    if i < n then
      (computeCornerInfoRoundabout P s.geo s.optRadius s.roundaboutOuterRadius
        i false).lambdaRight
    else s.lambdaRight i
  let lamL' : ℕ → ℚ := fun i =>
    if i < n then
      (computeCornerInfoRoundabout P s.geo s.optRadius s.roundaboutOuterRadius
        i false).lambdaLeft
    else s.lambdaLeft i
  { s with
    radii := rr
    circleXData := rx
    circleYData := ry
    lambdaLeft := lamL'
    lambdaRight := lamR'
    plotX := roundaboutPlotX P s.geo s.optRadius s.roundaboutOuterRadius
      s.nCornerPieces lamL' lamR' rx ry
    plotY := roundaboutPlotY P s.geo s.optRadius s.roundaboutOuterRadius
      s.nCornerPieces lamL' lamR' rx ry
    wayStartLL := fun i => if i < n ∧ s.geo.atStart i then lamL' i else s.wayStartLL i
    wayStartLR := fun i => if i < n ∧ s.geo.atStart i then lamR' i else s.wayStartLR i
    wayEndLL := fun i => if i < n ∧ ¬s.geo.atStart i then lamL' i else s.wayEndLL i
    wayEndLR := fun i => if i < n ∧ ¬s.geo.atStart i then lamR' i else s.wayEndLR i
    processed := true }

/-- The body of `Crossing.process` after the radius update: dispatch on
roundabout mode. -/
def processCore (P : Prims) (s : CrossingState) : CrossingState :=
  if s.roundabout then processRoundabout P s else processNonRoundabout P s

/-- `Crossing.process()`: store the computed turning radius into
`options.radius`, then resolve the corners and the boundary polygon. -/
def crossingProcess (P : Prims) (s : CrossingState) : CrossingState :=
  processCore P { s with optRadius := computeRadius s }

/-! ## Claims C5 and C8 -/

/-- A minimal concrete geometry snapshot for evaluation. -/
def geo0 : CrossingGeo :=
  { nways := 2
    vertexX := 0
    vertexY := 0
    dirX := fun _ => 0
    dirY := fun _ => 0
    hwidth := fun _ => 0
    nVertices := fun _ => 2
    atStart := fun _ => true
    angles := fun i => if i = 0 then 0 else 3 }

/-- A zebra crossing with no explicit radius override. -/
def zebraState : CrossingState := { geo := geo0, zebra := true }

/-- C5 counterexample: for a zebra junction without an explicit radius
override, `compute_radius` returns `0.01`, not `0` as the claim
states. -/
theorem claim_C5_counterexample :
    computeRadius zebraState = 1 / 100 ∧ (1 / 100 : ℚ) ≠ 0 := by
  constructor
  · norm_num [computeRadius, zebraState]
  · norm_num

/-- C5 (amended): `compute_radius` returns the explicit override when one
is set (`options.radius != -1`); otherwise `0.01` (not `0`) for a zebra
junction; otherwise the footway constant when every incident way is a
footway; otherwise the default vehicle radius. -/
theorem claim_C5_compute_radius (s : CrossingState) :
    (s.optRadius ≠ -1 → computeRadius s = s.optRadius) ∧
    (s.optRadius = -1 → s.zebra = true → computeRadius s = 1 / 100) ∧
    (s.optRadius = -1 → s.zebra = false → s.allFootway = true →
      computeRadius s = s.defaultRadiusFootway) ∧
    (s.optRadius = -1 → s.zebra = false → s.allFootway = false →
      computeRadius s = s.defaultRadius) := by
  refine ⟨fun h => ?_, fun h hz => ?_, fun h hz hf => ?_, fun h hz hf => ?_⟩
  · simp [computeRadius, h]
  · simp [computeRadius, h, hz]
  · simp [computeRadius, h, hz, hf]
  · simp [computeRadius, h, hz, hf]

/-- Witness for C5 at the concrete zebra state. -/
theorem claim_C5_compute_radius_witness : computeRadius zebraState = 1 / 100 :=
  (claim_C5_compute_radius zebraState).2.1 rfl rfl

/-- C8: for a corner between consecutive ways whose outward-direction
angle difference modulo 2π is at least π, `compute_corner_info` returns
radius = the first way's half width, circle center = the hub vertex
coordinates, and `lambda_left = lambda_right = 0`. -/
theorem claim_C8_degenerate_corner (P : Prims) (g : CrossingGeo)
    (optR rEntry : ℚ) (i : ℕ)
    (h : P.mod2pi (g.angles (succIdx g.nways i) - g.angles i) ≥ P.pi) :
    (computeCornerInfo P g optR rEntry i).radius = g.hwidth i ∧
    (computeCornerInfo P g optR rEntry i).circleX = g.vertexX ∧
    (computeCornerInfo P g optR rEntry i).circleY = g.vertexY ∧
    (computeCornerInfo P g optR rEntry i).lambdaLeft = 0 ∧
    (computeCornerInfo P g optR rEntry i).lambdaRight = 0 := by
  refine ⟨?_, ?_, ?_, ?_, ?_⟩ <;>
    · simp only [computeCornerInfo]
      rw [if_pos h]

/-- Witness for C8: with `pi = 3` in the primitive instance and stored
angles 0 and 3, the angle difference mod 2π is 3 ≥ π. -/
theorem claim_C8_degenerate_corner_witness :
    (computeCornerInfo prims0 geo0 2 (-1) 0).radius = geo0.hwidth 0 ∧
    (computeCornerInfo prims0 geo0 2 (-1) 0).circleX = geo0.vertexX := by
  have h : prims0.mod2pi (geo0.angles (succIdx geo0.nways 0) - geo0.angles 0) ≥
      prims0.pi := by
    norm_num [Prims.mod2pi, prims0, geo0, succIdx]
  have hmain := claim_C8_degenerate_corner prims0 geo0 2 (-1) 0 h
  exact ⟨hmain.1, hmain.2.1⟩

/-! ## Claim C2: idempotence of `Crossing.process` -/

/-- `np.mod(x, 2π)` is nonnegative when π is positive. -/
theorem mod2pi_nonneg (P : Prims) (hpi : 0 < P.pi) (x : ℚ) : 0 ≤ P.mod2pi x := by
  unfold Prims.mod2pi
  have h2 : (0 : ℚ) < 2 * P.pi := by linarith
  have hfl := Int.floor_le (x / (2 * P.pi))
  have hmul := mul_le_mul_of_nonneg_left hfl h2.le
  have hx : 2 * P.pi * (x / (2 * P.pi)) = x := by field_simp
  linarith

/-- The key stability fact of the corner computation: feeding the corner
radius computed once back in as the stored `radii` entry (as the second
`process` call does) reproduces the same corner.  Needs only that the
square root is nonnegative and that `tan` is nonnegative on `[0, π/2)`,
as the real functions are. -/
theorem cornerInfo_stable (P : Prims) (hsqrt : ∀ x, 0 ≤ P.sqrt x) (hpi : 0 < P.pi)
    (htan : ∀ x, 0 ≤ x → 2 * x < P.pi → 0 ≤ P.tan x) (g : CrossingGeo)
    (optR r0 : ℚ) (i : ℕ) :
    computeCornerInfo P g optR (computeCornerInfo P g optR r0 i).radius i
      = computeCornerInfo P g optR r0 i := by
  by_cases h : P.mod2pi (g.angles (succIdx g.nways i) - g.angles i) ≥ P.pi
  · simp only [computeCornerInfo, if_pos h]
  · simp only [computeCornerInfo, if_neg h]
    set angle := P.mod2pi (g.angles (succIdx g.nways i) - g.angles i) with hangle
    set j := succIdx g.nways i with hj
    set ρ : ℚ := if r0 < 0 then optR else r0 with hρ
    set maxRight : ℚ := if g.nVertices i = 2 then 45 / 100 else 9 / 10 with hmr
    set maxLeft : ℚ := if g.nVertices j = 2 then 45 / 100 else 9 / 10 with hml
    by_cases hchk :
        (computeIntersection P g i j (g.hwidth i + ρ) (g.hwidth j + ρ)).lambdaRight
          > maxRight ∨
        (computeIntersection P g i j (g.hwidth i + ρ) (g.hwidth j + ρ)).lambdaLeft
          > maxLeft
    · rw [if_pos hchk]
      set roadside := computeIntersection P g i j (g.hwidth i) (g.hwidth j) with hrs
      set dist := min
        (P.hypot (roadside.way1.xInit + maxRight * roadside.way1.xDir - roadside.x)
          (roadside.way1.yInit + maxRight * roadside.way1.yDir - roadside.y))
        (P.hypot (roadside.way2.xInit + maxLeft * roadside.way2.xDir - roadside.x)
          (roadside.way2.yInit + maxLeft * roadside.way2.yDir - roadside.y))
        with hdist
      have hdist0 : 0 ≤ dist := le_min (hsqrt _) (hsqrt _)
      have hangle0 : 0 ≤ angle := mod2pi_nonneg P hpi _
      have hanglelt : angle < P.pi := not_le.mp h
      have htan0 : 0 ≤ P.tan (angle / 2) := htan _ (by linarith) (by linarith)
      have hred0 : 0 ≤ dist * P.tan (angle / 2) := mul_nonneg hdist0 htan0
      rw [if_neg (not_lt.mpr hred0)]
      split <;> rfl
    · rw [if_neg hchk]
      have hρρ : (if ρ < 0 then optR else ρ) = ρ := by
        rw [hρ]
        by_cases h0 : r0 < 0
        · simp only [if_pos h0, ite_self]
        · simp only [if_neg h0]
      rw [hρρ, if_neg hchk]

/-- `Crossing.process` never changes the construction snapshot, the
option fields, or `options.radius` once set (it writes only the parms
arrays, the way write-backs and the processed flag). -/
theorem processCore_preserves (P : Prims) (s : CrossingState) :
    (processCore P s).geo = s.geo ∧ (processCore P s).optRadius = s.optRadius ∧
    (processCore P s).zebra = s.zebra ∧ (processCore P s).allFootway = s.allFootway ∧
    (processCore P s).defaultRadius = s.defaultRadius ∧
    (processCore P s).defaultRadiusFootway = s.defaultRadiusFootway ∧
    (processCore P s).roundabout = s.roundabout ∧
    (processCore P s).nCornerPieces = s.nCornerPieces ∧
    (processCore P s).roundaboutOuterRadius = s.roundaboutOuterRadius := by
  unfold processCore
  split <;> exact ⟨rfl, rfl, rfl, rfl, rfl, rfl, rfl, rfl, rfl⟩

/-- After `process` has stored the computed radius into `options.radius`,
a second `compute_radius` call returns the same value. -/
theorem computeRadius_stable (s t : CrossingState)
    (hopt : t.optRadius = computeRadius s) (hz : t.zebra = s.zebra)
    (hf : t.allFootway = s.allFootway) (hd : t.defaultRadius = s.defaultRadius)
    (hdf : t.defaultRadiusFootway = s.defaultRadiusFootway) :
    computeRadius t = computeRadius s := by
  unfold computeRadius at hopt ⊢
  rw [hopt, hz, hf, hd, hdf]
  split_ifs <;> rfl

/-- Unwritten boundary-polygon cells pass the previous plot array
through, so re-applying the non-roundabout plot write with the same
corner data is absorbing. -/
theorem nonRoundaboutPlotX_absorb (P : Prims) (g : CrossingGeo) (ncp : ℕ)
    (radii circX lamL lamR : ℕ → ℚ) (oldX : ℕ → ℕ → ℚ) :
    nonRoundaboutPlotX P g ncp radii circX lamL lamR
        (nonRoundaboutPlotX P g ncp radii circX lamL lamR oldX)
      = nonRoundaboutPlotX P g ncp radii circX lamL lamR oldX := by
  funext row col
  simp only [nonRoundaboutPlotX]
  by_cases h : col < g.nways ∧ row < ncp + 2
  · simp only [if_pos h]
  · simp only [if_neg h]

/-- `nonRoundaboutPlotX_absorb` for the y-data. -/
theorem nonRoundaboutPlotY_absorb (P : Prims) (g : CrossingGeo) (ncp : ℕ)
    (radii circY lamL lamR : ℕ → ℚ) (oldY : ℕ → ℕ → ℚ) :
    nonRoundaboutPlotY P g ncp radii circY lamL lamR
        (nonRoundaboutPlotY P g ncp radii circY lamL lamR oldY)
      = nonRoundaboutPlotY P g ncp radii circY lamL lamR oldY := by
  funext row col
  simp only [nonRoundaboutPlotY]
  by_cases h : col < g.nways ∧ row < ncp + 2
  · simp only [if_pos h]
  · simp only [if_neg h]

/-- The roundabout boundary polygon depends on the lambda arrays only at
the way indices, which both `process` calls fill identically. -/
theorem roundaboutPlotX_congr (P : Prims) (g : CrossingGeo)
    (optR outerR : ℚ) (ncp : ℕ) (l1 r1 l2 r2 circX circY : ℕ → ℚ)
    (hl : ∀ i, i < g.nways → l1 i = l2 i) (hr : ∀ i, i < g.nways → r1 i = r2 i) :
    roundaboutPlotX P g optR outerR ncp l1 r1 circX circY
      = roundaboutPlotX P g optR outerR ncp l2 r2 circX circY := by
  funext row col
  simp only [roundaboutPlotX]
  by_cases h : col < g.nways ∧ row < 3 * ncp + 2
  · have hcol : col < g.nways := h.1
    have hsucc : succIdx g.nways col < g.nways := by
      unfold succIdx
      split <;> omega
    simp only [if_pos h, hl col hcol, hr col hcol, hl _ hsucc, hr _ hsucc]
  · simp only [if_neg h]

/-- `succIdx` stays within the way range. -/
theorem succIdx_lt (n i : ℕ) (h : i < n) : succIdx n i < n := by
  unfold succIdx
  split <;> omega

/-- `prevIdx` stays within the way range. -/
theorem prevIdx_lt (n j : ℕ) (h : j < n) : prevIdx n j < n := by
  unfold prevIdx
  split <;> omega

/-- The non-roundabout boundary polygon depends on the corner arrays only
at the way indices and on the previous plot array only outside the
written range. -/
theorem nonRoundaboutPlotX_congr (P : Prims) (g : CrossingGeo) (ncp : ℕ)
    (R1 C1 L1 M1 R2 C2 L2 M2 : ℕ → ℚ) (old1 old2 : ℕ → ℕ → ℚ)
    (hR : ∀ i, i < g.nways → R1 i = R2 i) (hC : ∀ i, i < g.nways → C1 i = C2 i)
    (hL : ∀ i, i < g.nways → L1 i = L2 i) (hM : ∀ i, i < g.nways → M1 i = M2 i)
    (hold : ∀ row col, ¬(col < g.nways ∧ row < ncp + 2) →
      old1 row col = old2 row col) :
    nonRoundaboutPlotX P g ncp R1 C1 L1 M1 old1
      = nonRoundaboutPlotX P g ncp R2 C2 L2 M2 old2 := by
  funext row col
  simp only [nonRoundaboutPlotX]
  by_cases h : col < g.nways ∧ row < ncp + 2
  · have hcol : col < g.nways := h.1
    have hsucc := succIdx_lt g.nways col hcol
    simp only [if_pos h, hR col hcol, hC col hcol, hL col hcol, hM col hcol,
      hL _ hsucc, hM _ hsucc]
  · simp only [if_neg h]
    exact hold row col h

/-- `nonRoundaboutPlotX_congr` for the y-data. -/
theorem nonRoundaboutPlotY_congr (P : Prims) (g : CrossingGeo) (ncp : ℕ)
    (R1 C1 L1 M1 R2 C2 L2 M2 : ℕ → ℚ) (old1 old2 : ℕ → ℕ → ℚ)
    (hR : ∀ i, i < g.nways → R1 i = R2 i) (hC : ∀ i, i < g.nways → C1 i = C2 i)
    (hL : ∀ i, i < g.nways → L1 i = L2 i) (hM : ∀ i, i < g.nways → M1 i = M2 i)
    (hold : ∀ row col, ¬(col < g.nways ∧ row < ncp + 2) →
      old1 row col = old2 row col) :
    nonRoundaboutPlotY P g ncp R1 C1 L1 M1 old1
      = nonRoundaboutPlotY P g ncp R2 C2 L2 M2 old2 := by
  funext row col
  simp only [nonRoundaboutPlotY]
  by_cases h : col < g.nways ∧ row < ncp + 2
  · have hcol : col < g.nways := h.1
    have hsucc := succIdx_lt g.nways col hcol
    simp only [if_pos h, hR col hcol, hC col hcol, hL col hcol, hM col hcol,
      hL _ hsucc, hM _ hsucc]
  · simp only [if_neg h]
    exact hold row col h

/-- `roundaboutPlotX_congr` for the y-data. -/
theorem roundaboutPlotY_congr (P : Prims) (g : CrossingGeo)
    (optR outerR : ℚ) (ncp : ℕ) (l1 r1 l2 r2 circX circY : ℕ → ℚ)
    (hl : ∀ i, i < g.nways → l1 i = l2 i) (hr : ∀ i, i < g.nways → r1 i = r2 i) :
    roundaboutPlotY P g optR outerR ncp l1 r1 circX circY
      = roundaboutPlotY P g optR outerR ncp l2 r2 circX circY := by
  funext row col
  simp only [roundaboutPlotY]
  by_cases h : col < g.nways ∧ row < 3 * ncp + 2
  · have hcol : col < g.nways := h.1
    have hsucc : succIdx g.nways col < g.nways := by
      unfold succIdx
      split <;> omega
    simp only [if_pos h, hl col hcol, hr col hcol, hl _ hsucc, hr _ hsucc]
  · simp only [if_neg h]

/-- C2: two consecutive `Crossing.process()` calls with no intervening
mutation of the crossing, its ways or its vertex produce identical
boundary-polygon coordinates (`parms.plot.x_data` / `parms.plot.y_data`).
The only first-call writes the second call reads back are
`options.radius` (stable by `computeRadius_stable`) and the stored
per-corner radii (stable by `cornerInfo_stable`); the order facts
assumed of the primitives hold for the real `sqrt`, `tan` and π. -/
theorem claim_C2_process_idempotent (P : Prims)
    (hsqrt : ∀ x, 0 ≤ P.sqrt x) (hpi : 0 < P.pi)
    (htan : ∀ x, 0 ≤ x → 2 * x < P.pi → 0 ≤ P.tan x) (s : CrossingState) :
    (crossingProcess P (crossingProcess P s)).plotX = (crossingProcess P s).plotX ∧
    (crossingProcess P (crossingProcess P s)).plotY = (crossingProcess P s).plotY := by
  have hps := processCore_preserves P { s with optRadius := computeRadius s }
  have hopt : (crossingProcess P s).optRadius = computeRadius s := hps.2.1
  have hstab : computeRadius (crossingProcess P s) = computeRadius s :=
    computeRadius_stable s _ hps.2.1 hps.2.2.1 hps.2.2.2.1 hps.2.2.2.2.1
      hps.2.2.2.2.2.1
  have hcp2 : crossingProcess P (crossingProcess P s)
      = processCore P (crossingProcess P s) := by
    show processCore P { crossingProcess P s with
      optRadius := computeRadius (crossingProcess P s) } = _
    rw [hstab, ← hopt]
  rw [hcp2]
  cases hRb : s.roundabout
  · -- non-roundabout mode
    have hcp1 : crossingProcess P s
        = processNonRoundabout P { s with optRadius := computeRadius s } := by
      show processCore P { s with optRadius := computeRadius s } = _
      unfold processCore
      rw [show ({ s with optRadius := computeRadius s } : CrossingState).roundabout
        = false from hRb]
      simp
    have hub : (crossingProcess P s).roundabout = false :=
      (hps.2.2.2.2.2.2.1).trans hRb
    have hpcu : processCore P (crossingProcess P s)
        = processNonRoundabout P (crossingProcess P s) := by
      unfold processCore
      rw [hub]
      simp
    rw [hpcu, hcp1]
    constructor
    · simp only [processNonRoundabout]
      apply nonRoundaboutPlotX_congr
      · intro i hi
        simp only [if_pos hi]
        exact congrArg CornerInfoM.radius (cornerInfo_stable P hsqrt hpi htan _ _ _ i)
      · intro i hi
        simp only [if_pos hi]
        exact congrArg CornerInfoM.circleX (cornerInfo_stable P hsqrt hpi htan _ _ _ i)
      · intro j hj
        simp only [if_pos hj, if_pos (prevIdx_lt _ _ hj)]
        exact congrArg CornerInfoM.lambdaLeft
          (cornerInfo_stable P hsqrt hpi htan _ _ _ _)
      · intro i hi
        simp only [if_pos hi]
        exact congrArg CornerInfoM.lambdaRight
          (cornerInfo_stable P hsqrt hpi htan _ _ _ i)
      · intro row col h
        simp only [nonRoundaboutPlotX, if_neg h]
    · simp only [processNonRoundabout]
      apply nonRoundaboutPlotY_congr
      · intro i hi
        simp only [if_pos hi]
        exact congrArg CornerInfoM.radius (cornerInfo_stable P hsqrt hpi htan _ _ _ i)
      · intro i hi
        simp only [if_pos hi]
        exact congrArg CornerInfoM.circleY (cornerInfo_stable P hsqrt hpi htan _ _ _ i)
      · intro j hj
        simp only [if_pos hj, if_pos (prevIdx_lt _ _ hj)]
        exact congrArg CornerInfoM.lambdaLeft
          (cornerInfo_stable P hsqrt hpi htan _ _ _ _)
      · intro i hi
        simp only [if_pos hi]
        exact congrArg CornerInfoM.lambdaRight
          (cornerInfo_stable P hsqrt hpi htan _ _ _ i)
      · intro row col h
        simp only [nonRoundaboutPlotY, if_neg h]
  · -- roundabout mode
    have hcp1 : crossingProcess P s
        = processRoundabout P { s with optRadius := computeRadius s } := by
      show processCore P { s with optRadius := computeRadius s } = _
      unfold processCore
      rw [show ({ s with optRadius := computeRadius s } : CrossingState).roundabout
        = true from hRb]
      simp
    have hub : (crossingProcess P s).roundabout = true :=
      (hps.2.2.2.2.2.2.1).trans hRb
    have hpcu : processCore P (crossingProcess P s)
        = processRoundabout P (crossingProcess P s) := by
      unfold processCore
      rw [hub]
      simp
    rw [hpcu, hcp1]
    constructor
    · simp only [processRoundabout]
      apply roundaboutPlotX_congr
      · intro i hi
        simp only [if_pos hi]
      · intro i hi
        simp only [if_pos hi]
    · simp only [processRoundabout]
      apply roundaboutPlotY_congr
      · intro i hi
        simp only [if_pos hi]
      · intro i hi
        simp only [if_pos hi]

/-- Witness for C2 at a concrete primitive instance and crossing state. -/
theorem claim_C2_process_idempotent_witness :
    (crossingProcess prims0 (crossingProcess prims0 zebraState)).plotX
      = (crossingProcess prims0 zebraState).plotX :=
  (claim_C2_process_idempotent prims0 (fun _ => le_refl 0) (by norm_num [prims0])
    (fun _ _ _ => le_refl 0) zebraState).1

/-! ## Way geometry: the module-level `apply_offset`, `get_xy`,
`process` and the dashed lane lines (way.py), over possibly non-finite
values -/

/-- Clamp negatives to zero, as `tan_halpha_squared[tan_halpha_squared
< 0] = 0` does (a `nan` comparison is false, so `none` passes through). -/
def oclamp0 : OQ → OQ
  | some v => some (if v < 0 then 0 else v)
  | none => none

/-- Offset argument of the module-level `apply_offset`. -/
inductive GOffset where
  | scalar (v : ℚ)
  | ofList (vs : List ℚ)

/-- The module-level `apply_offset(xy_data, offset)`: per-vertex mitred
lateral offset.  The offset list is expanded (2-element lists are
interpolated by cumulative arc length, a scalar is broadcast), the local
tangent at vertex `i` runs from point `max(i-1, 0)` to `max(i, 1)`, and
the half-angle mitre correction `extra = sign * sqrt((1-cos)/(1+cos))`
is combined with the lateral offset in one update. -/
def applyOffsetGeom (P : Prims) (xy : List (OQ × OQ)) (off : GOffset) :
    List (OQ × OQ) :=
  let n := xy.length
  let getxy : ℕ → OQ × OQ := fun i => xy.getD i (none, none)
  let offList : List OQ :=
    match off with
    | .ofList vs =>
      if vs.length = 2 then
        let dists := (List.range (n - 1)).map (fun i =>
          ohypot P (osub (getxy (i + 1)).1 (getxy i).1)
            (osub (getxy (i + 1)).2 (getxy i).2))
        let cumulative := oq 0 :: (List.range dists.length).map (fun i =>
          (dists.take (i + 1)).foldl oadd (oq 0))
        let clast := cumulative.getLast (by simp [cumulative])
        cumulative.map (fun c =>
          oadd (oq (vs.getD 0 0))
            (omul (odiv c clast) (oq (vs.getD 1 0 - vs.getD 0 0))))
      else vs.map oq
    | .scalar v => List.replicate n (oq v)
  let dir : ℕ → OQ × OQ := fun i =>
    let dx := osub (getxy (max i 1)).1 (getxy (max (i - 1) 0)).1
    let dy := osub (getxy (max i 1)).2 (getxy (max (i - 1) 0)).2
    let norm := osqrt P (oadd (omul dx dx) (omul dy dy))
    (odiv dx norm, odiv dy norm)
  let cosines : ℕ → OQ := fun i =>
    if i < n - 1 then
      oadd (omul (dir i).1 (dir (i + 1)).1) (omul (dir i).2 (dir (i + 1)).2)
    else oq 1
  let tanHalphaSq : ℕ → OQ := fun i =>
    oclamp0 (odiv (osub (oq 1) (cosines i)) (oadd (oq 1) (cosines i)))
  let signv : ℕ → OQ := fun i =>
    if i < n - 1 then
      osign (osub (omul (dir i).2 (dir (i + 1)).1) (omul (dir i).1 (dir (i + 1)).2))
    else oq 1
  let extra : ℕ → OQ := fun i => omul (osqrt P (tanHalphaSq i)) (signv i)
  (List.range n).map (fun i =>
    ( oadd (getxy i).1
        (omul (osub (omul (dir i).1 (extra i)) (dir i).2) (offList.getD i none))
    , oadd (getxy i).2
        (omul (oadd (omul (dir i).2 (extra i)) (dir i).1) (offList.getD i none)) ))

/-- `Way.get_xy`: the vertex polyline with the first/last point drawn
back along the end segment by the larger crossing trim fraction when the
corresponding end is anchored at a crossing, then offset by the stored
per-vertex offsets. -/
def wayGetXy (P : Prims) (w : WayM) : List (OQ × OQ) :=
  let xy0 : List (ℚ × ℚ) := w.vertices.map (fun v => (v.x, v.y))
  let xyTmp := xy0.getD (xy0.length - 2) (0, 0)
  let xy1 :=
    if w.parms.crossing.iStart ≥ 0 then
      let lamb := max w.parms.crossing.startLambdaLeft w.parms.crossing.startLambdaRight
      xy0.mapIdx (fun i p =>
        if i = 0 then
          (p.1 + lamb * ((xy0.getD 1 (0, 0)).1 - p.1),
           p.2 + lamb * ((xy0.getD 1 (0, 0)).2 - p.2))
        else p)
    else xy0
  let xy2 :=
    if w.parms.crossing.iEnd ≥ 0 then
      let lamb := max w.parms.crossing.endLambdaLeft w.parms.crossing.endLambdaRight
      xy1.mapIdx (fun i p =>
        if i = xy1.length - 1 then
          (p.1 + lamb * (xyTmp.1 - p.1), p.2 + lamb * (xyTmp.2 - p.2))
        else p)
    else xy1
  applyOffsetGeom P (xy2.map (fun p => (oq p.1, oq p.2))) (.ofList w.parms.offset)

/-- The offset lane centerline of lane `ilane`
(`apply_offset(xy_data, lanewidth * (ilane - nlanes / 2))`). -/
def laneXyline (P : Prims) (opts : WayOptionsM) (xyData : List (OQ × OQ))
    (ilane : ℕ) : List (OQ × OQ) :=
  applyOffsetGeom P xyData
    (.scalar (opts.lanewidth * ((ilane : ℚ) - (opts.nlanes : ℚ) / 2)))

/-- The segment lengths of the lane centerline. -/
def laneLengths (P : Prims) (opts : WayOptionsM) (xyData : List (OQ × OQ))
    (ilane : ℕ) : List OQ :=
  let xyline := laneXyline P opts xyData ilane
  (List.range (xyline.length - 1)).map (fun i =>
    ohypot P (osub (xyline.getD (i + 1) (none, none)).1 (xyline.getD i (none, none)).1)
      (osub (xyline.getD (i + 1) (none, none)).2 (xyline.getD i (none, none)).2))

/-- The total centerline length (`np.sum`). -/
def laneTotalLength (P : Prims) (opts : WayOptionsM) (xyData : List (OQ × OQ))
    (ilane : ℕ) : OQ :=
  (laneLengths P opts xyData ilane).foldl oadd (oq 0)

/-- `nlines = np.round(total_length / line_interval).astype(int) + 1`
(the cast of a non-finite float is platform-defined in numpy; the `none`
case is outside every claim and yields 0 lines here). -/
def laneNLines (P : Prims) (opts : WayOptionsM) (xyData : List (OQ × OQ))
    (ilane : ℕ) : ℤ :=
  match odiv (laneTotalLength P opts xyData ilane) (oq opts.lineInterval) with
  | some q => npRound q + 1
  | none => 0

/-- `interval_ratio = total_length / ((nlines - 1) * line_interval)` —
the dash-interval scaling, the division the claim is about (for
`nlines = 1` the divisor is zero and the result non-finite). -/
def laneScale (P : Prims) (opts : WayOptionsM) (xyData : List (OQ × OQ))
    (ilane : ℕ) : OQ :=
  odiv (laneTotalLength P opts xyData ilane)
    (oq (((laneNLines P opts xyData ilane - 1 : ℤ) : ℚ) * opts.lineInterval))

/-- The interpolation step of `Way.point_on_line` once the interval is
found. -/
def pointOnLineFinish (xyline : List (OQ × OQ)) (lengths : List OQ)
    (ii : ℕ) (d : OQ) : OQ × OQ × OQ × ℕ :=
  let ds := odiv d (lengths.getD ii none)
  ( oadd (omul (xyline.getD ii (none, none)).1 (osub (oq 1) ds))
      (omul (xyline.getD (ii + 1) (none, none)).1 ds)
  , oadd (omul (xyline.getD ii (none, none)).2 (osub (oq 1) ds))
      (omul (xyline.getD (ii + 1) (none, none)).2 ds)
  , d, ii )

/-- The interval-advancing `while` loop of `Way.point_on_line`; each pass
moves to the next interval, so `lengths.length + 1` fuel strictly
exceeds the possible iteration count and the fuel clause is never the
exit path. -/
def pointOnLineGo (xyline : List (OQ × OQ)) (lengths : List OQ) :
    ℕ → ℕ → OQ → OQ × OQ × OQ × ℕ
  | 0, ii, d => pointOnLineFinish xyline lengths ii d
  | fuel + 1, ii, d =>
    if oGT d (lengths.getD ii none) then
      if ii + 1 = lengths.length then pointOnLineFinish xyline lengths ii d
      else pointOnLineGo xyline lengths fuel (ii + 1) (osub d (lengths.getD ii none))
    else pointOnLineFinish xyline lengths ii d

/-- `Way.point_on_line(distance)`: easting, northing, updated distance
and updated interval index. -/
def pointOnLine (xyline : List (OQ × OQ)) (lengths : List OQ) (ii : ℕ)
    (d : OQ) : OQ × OQ × OQ × ℕ :=
  pointOnLineGo xyline lengths (lengths.length + 1) ii d

/-- The dash-placing loop of `Way.generate_lane_lines`: line `i` ends
after a half (first/last) or full scaled dash length, is appended, and
unless it was the last the next line's start is advanced by the scaled
gap. -/
def laneLinesGo (xyline : List (OQ × OQ)) (lengths : List OQ)
    (lineInterval lineLength : ℚ) (scale : OQ) (nlines : ℕ) :
    ℕ → ℕ → Line4 → OQ → ℕ → List Line4 → List Line4 × ℕ
  | 0, _, _, _, ii, acc => (acc, ii)
  | rem + 1, i, line, d, ii, acc =>
    let d := oadd d (if i = 0 ∨ i = nlines - 1
      then odiv (omul (oq lineLength) scale) (oq 2)
      else omul (oq lineLength) scale)
    let r := pointOnLine xyline lengths ii d
    let line := { line with x1 := r.1, y1 := r.2.1 }
    let acc := acc ++ [line]
    if i = nlines - 1 then (acc, r.2.2.2)
    else
      let d := oadd r.2.2.1 (omul (oq (lineInterval - lineLength)) scale)
      let r2 := pointOnLine xyline lengths r.2.2.2 d
      laneLinesGo xyline lengths lineInterval lineLength scale nlines rem (i + 1)
        { line with x0 := r2.1, y0 := r2.2.1 } r2.2.2.1 r2.2.2.2 acc

/-- `Way.generate_lane_lines(ilane, xy_data)`: offset centerline, dash
count and scaled interval, then the dash loop appending to
`parms.plot.lines` (with `i_interval` reset to 0 first). -/
def generateLaneLines (P : Prims) (opts : WayOptionsM) (pl : WayPlotM)
    (ilane : ℕ) (xyData : List (OQ × OQ)) : WayPlotM :=
  let xyline := laneXyline P opts xyData ilane
  let lengths := laneLengths P opts xyData ilane
  let nlines := laneNLines P opts xyData ilane
  let scale := laneScale P opts xyData ilane
  let line0 : Line4 :=
    { x0 := (xyline.getD 0 (none, none)).1
      y0 := (xyline.getD 0 (none, none)).2
      x1 := oq 0
      y1 := oq 0 }
  let res := laneLinesGo xyline lengths opts.lineInterval opts.lineLength scale
    nlines.toNat nlines.toNat 0 line0 (oq 0) 0 pl.lines
  { pl with xyline := xyline, lengths := lengths, lines := res.1, iInterval := res.2 }

/-- `Way.process()`: recompute the left/right boundaries from the offset
polyline, overwrite the boundary endpoints that a connection (and no
crossing) owns, and regenerate the dashed lane dividers when the way has
more than one lane and its line type is not `"none"`. -/
def wayProcess (P : Prims) (w : WayM) : WayM :=
  let xyData := wayGetXy P w
  let xyLeft := applyOffsetGeom P xyData (.scalar w.parms.hwidth)
  let xyRight := applyOffsetGeom P xyData (.scalar (-w.parms.hwidth))
  let left : XYDataM := { xData := xyLeft.map (·.1), yData := xyLeft.map (·.2) }
  let right : XYDataM := { xData := xyRight.map (·.1), yData := xyRight.map (·.2) }
  let fixStart := w.parms.connection.iStart ≥ 0 ∧ w.parms.crossing.iStart = -1
  let fixEnd := w.parms.connection.iEnd ≥ 0 ∧ w.parms.crossing.iEnd = -1
  let left :=
    if fixStart then
      { left with
        xData := left.xData.mapIdx (fun i x => if i = 0 then oq w.parms.connection.xLeftStart else x)
        yData := left.yData.mapIdx (fun i y => if i = 0 then oq w.parms.connection.yLeftStart else y) }
    else left
  let right :=
    if fixStart then
      { right with
        xData := right.xData.mapIdx (fun i x => if i = 0 then oq w.parms.connection.xRightStart else x)
        yData := right.yData.mapIdx (fun i y => if i = 0 then oq w.parms.connection.yRightStart else y) }
    else right
  let left :=
    if fixEnd then
      { left with
        xData := left.xData.mapIdx (fun i x =>
          if i = left.xData.length - 1 then oq w.parms.connection.xLeftEnd else x)
        yData := left.yData.mapIdx (fun i y =>
          if i = left.yData.length - 1 then oq w.parms.connection.yLeftEnd else y) }
    else left
  let right :=
    if fixEnd then
      { right with
        xData := right.xData.mapIdx (fun i x =>
          if i = right.xData.length - 1 then oq w.parms.connection.xRightEnd else x)
        yData := right.yData.mapIdx (fun i y =>
          if i = right.yData.length - 1 then oq w.parms.connection.yRightEnd else y) }
    else right
  let plot :=
    if 1 < w.options.nlanes ∧ w.options.linetype ≠ some "none" then
      (List.range (w.options.nlanes - 1).toNat).foldl
        (fun pl k => generateLaneLines P w.options pl (k + 1) xyData)
        { w.parms.plot with lines := [] }
    else w.parms.plot
  { w with parms := { w.parms with left := left, right := right, plot := plot } }

/-! ## Claim C10: division by zero for short lane centerlines -/

/-- `np.round` of a value in `[0, 1/2)` is 0. -/
theorem npRound_eq_zero (q : ℚ) (h0 : 0 ≤ q) (h1 : q < 1 / 2) : npRound q = 0 := by
  have hfl : ⌊q⌋ = 0 := Int.floor_eq_zero_iff.mpr ⟨h0, by linarith⟩
  unfold npRound
  rw [hfl]
  have hq : q - ((0 : ℤ) : ℚ) < 1 / 2 := by push_cast; linarith
  rw [if_pos hq]

/-- For a lane whose centerline is shorter than half the line interval,
the dash count evaluates to one, the interval scaling divides by zero,
and the single stored dash has non-finite end coordinates. -/
theorem generateLaneLines_short (P : Prims) (opts : WayOptionsM) (pl : WayPlotM)
    (ilane : ℕ) (xyData : List (OQ × OQ)) (t : ℚ)
    (hT : laneTotalLength P opts xyData ilane = oq t) (ht0 : 0 < t)
    (hthalf : t < opts.lineInterval / 2) (hiv : 0 < opts.lineInterval) :
    laneScale P opts xyData ilane = none ∧
    (generateLaneLines P opts pl ilane xyData).lines
      = pl.lines ++
        [{ x0 := ((laneXyline P opts xyData ilane).getD 0 (none, none)).1
           y0 := ((laneXyline P opts xyData ilane).getD 0 (none, none)).2
           x1 := none
           y1 := none }] := by
  have hq : odiv (laneTotalLength P opts xyData ilane) (oq opts.lineInterval)
      = some (t / opts.lineInterval) := by
    rw [hT]
    simp [odiv, oq, hiv.ne']
  have hr0 : npRound (t / opts.lineInterval) = 0 :=
    npRound_eq_zero _ (le_of_lt (div_pos ht0 hiv))
      (by rw [div_lt_iff₀ hiv]; linarith)
  have hn : laneNLines P opts xyData ilane = 1 := by
    unfold laneNLines
    rw [hq]
    show npRound (t / opts.lineInterval) + 1 = 1
    rw [hr0]
    norm_num
  have hscale : laneScale P opts xyData ilane = none := by
    unfold laneScale
    rw [hn, hT]
    norm_num [odiv, oq]
  refine ⟨hscale, ?_⟩
  unfold generateLaneLines
  rw [hn, hscale]
  simp [laneLinesGo, pointOnLine, pointOnLineGo, pointOnLineFinish,
    oadd, omul, odiv, osub, oGT, oq, oclamp0]

/-- Each dash-loop pass only appends to the accumulated line list. -/
theorem laneLinesGo_extends (xyline : List (OQ × OQ)) (lengths : List OQ)
    (li ll : ℚ) (scale : OQ) (nl : ℕ) :
    ∀ fuel i line d ii acc, ∃ rest,
      (laneLinesGo xyline lengths li ll scale nl fuel i line d ii acc).1
        = acc ++ rest := by
  intro fuel
  induction fuel with
  | zero =>
    intro i line d ii acc
    exact ⟨[], (List.append_nil acc).symm⟩
  | succ n ih =>
    intro i line d ii acc
    simp only [laneLinesGo]
    split
    · exact ⟨_, rfl⟩
    · obtain ⟨rest, hrest⟩ := ih (i + 1) _ _ _ _
      exact ⟨_, hrest.trans (List.append_assoc _ _ _)⟩

/-- `generate_lane_lines` only appends to `parms.plot.lines`. -/
theorem generateLaneLines_extends (P : Prims) (opts : WayOptionsM) (pl : WayPlotM)
    (ilane : ℕ) (xyData : List (OQ × OQ)) :
    ∃ rest, (generateLaneLines P opts pl ilane xyData).lines = pl.lines ++ rest := by
  unfold generateLaneLines
  exact laneLinesGo_extends _ _ _ _ _ _ _ _ _ _ _ _

/-- The per-lane loop of `Way.process` only appends to the line list. -/
theorem foldLanes_extends (P : Prims) (opts : WayOptionsM)
    (xyData : List (OQ × OQ)) :
    ∀ (ks : List ℕ) (pl : WayPlotM), ∃ rest,
      (ks.foldl (fun p k => generateLaneLines P opts p (k + 1) xyData) pl).lines
        = pl.lines ++ rest := by
  intro ks
  induction ks with
  | nil =>
    intro pl
    exact ⟨[], (List.append_nil _).symm⟩
  | cons k ks ih =>
    intro pl
    obtain ⟨r1, h1⟩ := generateLaneLines_extends P opts pl (k + 1) xyData
    obtain ⟨r2, h2⟩ := ih (generateLaneLines P opts pl (k + 1) xyData)
    exact ⟨r1 ++ r2, by rw [List.foldl_cons, h2, h1, List.append_assoc]⟩

/-- A unit-length straight two-lane way (shorter than half the default
line interval of 3), default line type. -/
def shortWay : WayM := mkWay [⟨0, 0, 0⟩, ⟨1, 1, 0⟩] {}

/-- The same way with line type `"none"`. -/
def shortWayNoLines : WayM := mkWay [⟨0, 0, 0⟩, ⟨1, 1, 0⟩] { linetype := some "none" }

theorem oadd_some (a b : ℚ) : oadd (some a) (some b) = some (a + b) := rfl

theorem osub_some (a b : ℚ) : osub (some a) (some b) = some (a - b) := rfl

theorem omul_some (a b : ℚ) : omul (some a) (some b) = some (a * b) := rfl

theorem odiv_some (a b : ℚ) (h : b ≠ 0) : odiv (some a) (some b) = some (a / b) := by
  simp [odiv, h]

theorem osqrt_some (P : Prims) (a : ℚ) : osqrt P (some a) = some (P.sqrt a) := rfl

theorem osign_some (a : ℚ) :
    osign (some a) = some (if 0 < a then 1 else if a < 0 then -1 else 0) := rfl

theorem oclamp0_some (a : ℚ) : oclamp0 (some a) = some (if a < 0 then 0 else a) := rfl

theorem ohypot_some (P : Prims) (a b : ℚ) :
    ohypot P (some a) (some b) = some (P.sqrt (a * a + b * b)) := rfl

set_option maxHeartbeats 1000000 in
/-- The identity-square-root instance applied to the straight unit
two-vertex polyline leaves it unchanged. -/
theorem offsetGeom_unit_line :
    applyOffsetGeom primsId [(oq 0, oq 0), (oq 1, oq 0)] (.ofList [0, 0])
        = [(oq 0, oq 0), (oq 1, oq 0)] ∧
    applyOffsetGeom primsId [(oq 0, oq 0), (oq 1, oq 0)] (.scalar 0)
        = [(oq 0, oq 0), (oq 1, oq 0)] := by
  constructor <;>
    norm_num [applyOffsetGeom, primsId, oq, oadd_some, osub_some, omul_some,
      osqrt_some, osign_some, oclamp0_some, ohypot_some, odiv_some,
      List.range_succ]

set_option maxHeartbeats 1000000 in
/-- `get_xy` of the unit way is the unit polyline. -/
theorem shortWay_getXy :
    wayGetXy primsId shortWay = [(oq 0, oq 0), (oq 1, oq 0)] := by
  have h := offsetGeom_unit_line.1
  norm_num [wayGetXy, shortWay, mkWay]
  convert h using 2

set_option maxHeartbeats 1000000 in
/-- With the identity standing in for the square root (exact on these
integer squares), the lane-1 centerline of `shortWay` has total length
1. -/
theorem shortWay_total :
    laneTotalLength primsId shortWay.options (wayGetXy primsId shortWay) 1 = oq 1 := by
  rw [laneTotalLength, laneLengths, laneXyline, shortWay_getXy]
  have h2 : applyOffsetGeom primsId [(oq 0, oq 0), (oq 1, oq 0)]
      (.scalar (shortWay.options.lanewidth *
        ((1 : ℕ) - (shortWay.options.nlanes : ℚ) / 2))) =
      [(oq 0, oq 0), (oq 1, oq 0)] := by
    have : shortWay.options.lanewidth * ((1 : ℕ) - (shortWay.options.nlanes : ℚ) / 2)
        = 0 := by
      norm_num [shortWay, mkWay]
    rw [this]
    exact offsetGeom_unit_line.2
  rw [h2]
  norm_num [oq, oadd_some, osub_some, ohypot_some, primsId, List.range_succ]

set_option maxHeartbeats 1000000 in
/-- `get_xy` of the `"none"`-line-type variant (same geometry). -/
theorem shortWayNoLines_getXy :
    wayGetXy primsId shortWayNoLines = [(oq 0, oq 0), (oq 1, oq 0)] := by
  have h := offsetGeom_unit_line.1
  norm_num [wayGetXy, shortWayNoLines, mkWay]
  convert h using 2

set_option maxHeartbeats 1000000 in
/-- Total lane-1 centerline length of the `"none"`-line-type variant. -/
theorem shortWayNoLines_total :
    laneTotalLength primsId shortWayNoLines.options
      (wayGetXy primsId shortWayNoLines) 1 = oq 1 := by
  rw [laneTotalLength, laneLengths, laneXyline, shortWayNoLines_getXy]
  have h2 : applyOffsetGeom primsId [(oq 0, oq 0), (oq 1, oq 0)]
      (.scalar (shortWayNoLines.options.lanewidth *
        ((1 : ℕ) - (shortWayNoLines.options.nlanes : ℚ) / 2))) =
      [(oq 0, oq 0), (oq 1, oq 0)] := by
    have : shortWayNoLines.options.lanewidth *
        ((1 : ℕ) - (shortWayNoLines.options.nlanes : ℚ) / 2) = 0 := by
      norm_num [shortWayNoLines, mkWay]
    rw [this]
    exact offsetGeom_unit_line.2
  rw [h2]
  norm_num [oq, oadd_some, osub_some, ohypot_some, primsId, List.range_succ]

/-- C10 counterexample: the claim omits the line-type condition.  This
two-lane way satisfies the claim's premises (more than one lane, lane
centerline of length 1 < 3/2 = half the line interval) but has line type
`"none"`, so `process` never reaches the dash generation: no division
happens and no line coordinates at all are stored. -/
theorem claim_C10_counterexample :
    (1 : ℤ) < shortWayNoLines.options.nlanes ∧
    laneTotalLength primsId shortWayNoLines.options
      (wayGetXy primsId shortWayNoLines) 1 = oq 1 ∧
    (1 : ℚ) < shortWayNoLines.options.lineInterval / 2 ∧
    (wayProcess primsId shortWayNoLines).parms.plot.lines = [] := by
  refine ⟨by norm_num [shortWayNoLines, mkWay], shortWayNoLines_total,
    by norm_num [shortWayNoLines, mkWay], ?_⟩
  have hcond : ¬(1 < shortWayNoLines.options.nlanes ∧
      shortWayNoLines.options.linetype ≠ some "none") := by
    simp [shortWayNoLines, mkWay]
  simp only [wayProcess, if_neg hcond]
  simp [shortWayNoLines, mkWay]

/-- C10 (amended): for a way with more than one lane **and a line type
other than "none"**, if some lane's offset centerline has positive total
length below half the (positive) line interval — so the dash count
rounds to 1 — then `Way.process()` divides the total length by zero when
scaling the dash interval (`laneScale = none`) and stores a lane-divider
line with non-finite end coordinates, rather than skipping the dashes or
raising an error. -/
theorem claim_C10_short_lane_divzero (P : Prims) (w : WayM) (ilane : ℕ) (t : ℚ)
    (hlane1 : 1 ≤ ilane) (hlane2 : (ilane : ℤ) < w.options.nlanes)
    (hlt : w.options.linetype ≠ some "none")
    (hT : laneTotalLength P w.options (wayGetXy P w) ilane = oq t)
    (ht0 : 0 < t) (hthalf : t < w.options.lineInterval / 2)
    (hiv : 0 < w.options.lineInterval) :
    laneScale P w.options (wayGetXy P w) ilane = none ∧
    ∃ l ∈ (wayProcess P w).parms.plot.lines, l.x1 = none ∧ l.y1 = none := by
  have hshort := fun pl => generateLaneLines_short P w.options pl ilane
    (wayGetXy P w) t hT ht0 hthalf hiv
  refine ⟨(hshort {}).1, ?_⟩
  set bad : Line4 :=
    { x0 := ((laneXyline P w.options (wayGetXy P w) ilane).getD 0 (none, none)).1
      y0 := ((laneXyline P w.options (wayGetXy P w) ilane).getD 0 (none, none)).2
      x1 := none
      y1 := none } with hbad
  have hmem : ∀ (ks : List ℕ) (pl : WayPlotM), (∃ k ∈ ks, k + 1 = ilane) →
      bad ∈ (ks.foldl
        (fun p k => generateLaneLines P w.options p (k + 1) (wayGetXy P w))
        pl).lines := by
    intro ks
    induction ks with
    | nil =>
      rintro pl ⟨k, hk, -⟩
      exact absurd hk (List.not_mem_nil k)
    | cons k ks ih =>
      rintro pl ⟨k', hk', hkil⟩
      rw [List.foldl_cons]
      rcases List.mem_cons.mp hk' with rfl | htail
      · obtain ⟨rest, hrest⟩ := foldLanes_extends P w.options (wayGetXy P w) ks
          (generateLaneLines P w.options pl (k' + 1) (wayGetXy P w))
        rw [hrest, hkil, (hshort pl).2]
        simp [hbad]
      · exact ih _ ⟨k', htail, hkil⟩
  have hcond : 1 < w.options.nlanes ∧ w.options.linetype ≠ some "none" :=
    ⟨by omega, hlt⟩
  have hfin := hmem (List.range ((w.options.nlanes - 1).toNat))
    { w.parms.plot with lines := [] }
    ⟨ilane - 1, List.mem_range.mpr (by omega), by omega⟩
  refine ⟨bad, ?_, rfl, rfl⟩
  simp only [wayProcess, if_pos hcond]
  exact hfin

/-- Witness for C10 on the concrete short way. -/
theorem claim_C10_short_lane_divzero_witness :
    laneScale primsId shortWay.options (wayGetXy primsId shortWay) 1 = none ∧
    ∃ l ∈ (wayProcess primsId shortWay).parms.plot.lines,
      l.x1 = none ∧ l.y1 = none :=
  claim_C10_short_lane_divzero primsId shortWay 1 1 (le_refl 1)
    (by norm_num [shortWay, mkWay]) (by simp [shortWay, mkWay]) shortWay_total
    (by norm_num) (by norm_num [shortWay, mkWay]) (by norm_num [shortWay, mkWay])

/-! ## Crossing construction (`Crossing.__init__`) over ways -/

instance : Inhabited VertexM := ⟨⟨0, 0, 0⟩⟩

instance : Inhabited WayM := ⟨mkWay [] {}⟩

/-- `Crossing.direction(way)` before sorting: the outward direction of a
way from the hub, from its first two vertices when the hub is the way's
first vertex (`way.ivs[0] == vertex.idx`), else from its last two. -/
def wayDirectionAt (w : WayM) (vertexIdx : ℤ) : ℚ × ℚ :=
  if w.ivs.headI = vertexIdx then
    ((w.vertices.getD 1 default).x - (w.vertices.getD 0 default).x,
     (w.vertices.getD 1 default).y - (w.vertices.getD 0 default).y)
  else
    ((w.vertices.getD (w.vertices.length - 2) default).x -
       (w.vertices.getD (w.vertices.length - 1) default).x,
     (w.vertices.getD (w.vertices.length - 2) default).y -
       (w.vertices.getD (w.vertices.length - 1) default).y)

/-- Stable insertion into an angle-sorted list (`np.argsort`; numpy's
default quicksort leaves the order of exactly equal angles unspecified,
this model keeps the original order). -/
def insertByAngle (p : WayM × ℚ) : List (WayM × ℚ) → List (WayM × ℚ)
  | [] => [p]
  | q :: rest => if p.2 ≤ q.2 then p :: q :: rest else q :: insertByAngle p rest

/-- Sort way/angle pairs by ascending angle. -/
def sortByAngle : List (WayM × ℚ) → List (WayM × ℚ)
  | [] => []
  | p :: rest => insertByAngle p (sortByAngle rest)

/-- The options of a crossing that the geometry reads
(`CrossingOptions`). -/
structure CrossingOptsM where
  radius : ℚ := -1
  nCornerPieces : ℕ := 20
  defaultRadius : ℚ := 2
  defaultRadiusFootway : ℚ := 1 / 100
  roundabout : Bool := false
  roundaboutOuterRadius : ℚ := 6

/-- The link write of `Crossing.__init__` onto one incident way: the
crossing registers itself on the start slot when the way starts at the
hub, else on the end slot. -/
def crossingLinkWay (index : ℤ) (vertexIdx : ℤ) (w : WayM) : WayM :=
  if w.ivs.headI = vertexIdx then
    { w with parms := { w.parms with crossing := { w.parms.crossing with iStart := index } } }
  else
    { w with parms := { w.parms with crossing := { w.parms.crossing with iEnd := index } } }

/-- `Crossing.__init__`: zebra flag (exactly two footways), per-way
angles `arctan2(dx, dy)`, clockwise reordering by angle, at-start flags,
and the initial parms arrays.  The caller applies `crossingLinkWay` to
the (shared) incident ways. -/
def mkCrossing (P : Prims) (vertex : VertexM) (ways : List WayM)
    (opts : CrossingOptsM) : CrossingState :=
  let pairs := ways.map (fun w =>
    (w, P.atan2 (wayDirectionAt w vertex.idx).1 (wayDirectionAt w vertex.idx).2))
  let sorted := sortByAngle pairs
  let sortedWays := sorted.map (·.1)
  { geo :=
      { nways := ways.length
        vertexX := vertex.x
        vertexY := vertex.y
        dirX := fun i => (wayDirectionAt (sortedWays.getD i default) vertex.idx).1
        dirY := fun i => (wayDirectionAt (sortedWays.getD i default) vertex.idx).2
        hwidth := fun i => (sortedWays.getD i default).parms.hwidth
        nVertices := fun i => (sortedWays.getD i default).vertices.length
        atStart := fun i => (sortedWays.getD i default).ivs.headI = vertex.idx
        angles := fun i => (sorted.map (·.2)).getD i 0 }
    zebra := (ways.filter (fun w => w.options.highway = some "footway")).length = 2
    allFootway := ways.all (fun w => w.options.highway = some "footway")
    optRadius := opts.radius
    nCornerPieces := opts.nCornerPieces
    defaultRadius := opts.defaultRadius
    defaultRadiusFootway := opts.defaultRadiusFootway
    roundabout := opts.roundabout
    roundaboutOuterRadius := opts.roundaboutOuterRadius }

/-! ## Connection (connection.py) -/

/-- `Connection.direction(i)`: outward direction of a way from the
shared vertex. -/
def connDirection (w : WayM) (atStart : Bool) : ℚ × ℚ :=
  if atStart then
    ((w.vertices.getD 1 default).x - (w.vertices.getD 0 default).x,
     (w.vertices.getD 1 default).y - (w.vertices.getD 0 default).y)
  else
    ((w.vertices.getD (w.vertices.length - 2) default).x -
       (w.vertices.getD (w.vertices.length - 1) default).x,
     (w.vertices.getD (w.vertices.length - 2) default).y -
       (w.vertices.getD (w.vertices.length - 1) default).y)

/-- A `Connection`: the two ways (way1 the one with at most as many
lanes), the shared-end flags, the turn angle, the optional delegate
crossing (whose way write-backs live in the crossing state's `wayStart…`
fields), and the merge parameters of `ConnectionParameters`. -/
structure ConnM where
  idx : ℤ
  way1 : WayM
  way2 : WayM
  atStart1 : Bool := true
  atStart2 : Bool := true
  angle : ℚ := 0
  crossingIdx : ℤ := 0
  crossing : Option CrossingState := none
  hlengthMerge : ℚ := 5
  distance1 : ℚ := 0
  distance2 : ℚ := 0
  xoffsetLeft : ℚ := 0
  yoffsetLeft : ℚ := 0
  xoffsetRight : ℚ := 0
  yoffsetRight : ℚ := 0

/-- The tail of `Connection.__init__` once the shared-end combination is
known: the shared vertex, the angle `arccos` of the normalized dot
product of the outward directions, and — when `np.abs(angle) ≤ 3π/4` —
the internal delegate `Crossing` over the two ways (whose construction
registers itself on the ways' crossing slots with index 0). -/
def connectionFinish (P : Prims) (index : ℤ) (w1 w2 : WayM) (at1 at2 : Bool) :
    ConnM × WayM × WayM :=
  let vertex := if at1 then w1.vertices.getD 0 default
    else w1.vertices.getD (w1.vertices.length - 1) default
  let d1 := connDirection w1 at1
  let d2 := connDirection w2 at2
  let angle := P.acos ((d1.1 * d2.1 + d1.2 * d2.2) /
    (P.hypot d1.1 d1.2 * P.hypot d2.1 d2.2))
  if |angle| ≤ 3 * P.pi / 4 then
    let w1c := crossingLinkWay 0 vertex.idx w1
    let w2c := crossingLinkWay 0 vertex.idx w2
    let cs := mkCrossing P vertex [w1c, w2c] {}
    ( { idx := index, way1 := w1c, way2 := w2c, atStart1 := at1, atStart2 := at2
        angle := angle, crossing := some cs }
    , w1c, w2c )
  else
    ( { idx := index, way1 := w1, way2 := w2, atStart1 := at1, atStart2 := at2
        angle := angle, crossing := none }
    , w1, w2 )

/-- `Connection.__init__`: order the two ways by lane count, find which
of the four start/end combinations shares a vertex id — registering the
connection on the matched slots — and raise `InvalidConnectionError`
(before any slot write) when none matches.  The returned pair of updated
ways is in the argument order. -/
def connectionInit (P : Prims) (index : ℤ) (wayA wayB : WayM) :
    Except Unit (ConnM × WayM × WayM) :=
  let swapped := wayA.options.nlanes > wayB.options.nlanes
  let w1 := if swapped then wayB else wayA
  let w2 := if swapped then wayA else wayB
  let setStart := fun (w : WayM) => { w with parms :=
    { w.parms with connection := { w.parms.connection with iStart := index } } }
  let setEnd := fun (w : WayM) => { w with parms :=
    { w.parms with connection := { w.parms.connection with iEnd := index } } }
  let finish := fun (w1' w2' : WayM) (at1 at2 : Bool) =>
    let r := connectionFinish P index w1' w2' at1 at2
    if swapped then Except.ok (r.1, r.2.2, r.2.1) else Except.ok (r.1, r.2.1, r.2.2)
  if w1.ivs.headI = w2.ivs.headI then
    finish (setStart w1) (setStart w2) true true
  else if w1.ivs.getLastI = w2.ivs.headI then
    finish (setEnd w1) (setStart w2) false true
  else if w1.ivs.headI = w2.ivs.getLastI then
    finish (setStart w1) (setEnd w2) true false
  else if w1.ivs.getLastI = w2.ivs.getLastI then
    finish (setEnd w1) (setEnd w2) false false
  else
    .error ()

/-- `Connection.check_for_offset`: when way2 has exactly one more lane,
shift way2's offsets at the shared end by half a lane width, to the left
when its turn-lane string signals a left lane. -/
def checkForOffset (P : Prims) (c : ConnM) : ConnM :=
  let diff := c.way2.options.nlanes - c.way1.options.nlanes
  if diff = 1 then
    let offset0 := (diff : ℚ) / 2 * c.way2.options.lanewidth
    let offset :=
      match c.way2.options.turnlanes with
      | some tl => if tl.startsWith "left" ∨ tl.endsWith "left" then -offset0 else offset0
      | none => offset0
    if c.atStart2 then
      { c with way2 := wayApplyOffset P c.way2 (.ofList [-offset, 0]) }
    else
      { c with way2 := wayApplyOffset P c.way2 (.ofList [0, offset]) }
  else c

/-- `Connection.compute_single_distance` for one way: distance from the
shared vertex to the next vertex; if it exceeds the merge half-length a
new vertex is synthesized at the merge distance, inserted into the way,
and any crossing invalidated by the insertion is collected. -/
def computeSingleDistance (P : Prims) (hlengthMerge : ℚ) (atStart : Bool)
    (w : WayM) : Except Unit (ℚ × WayM × List VertexM × List ℤ) :=
  let x1 := if atStart then (w.vertices.getD 0 default).x
    else (w.vertices.getD (w.vertices.length - 1) default).x
  let y1 := if atStart then (w.vertices.getD 0 default).y
    else (w.vertices.getD (w.vertices.length - 1) default).y
  let x2 := if atStart then (w.vertices.getD 1 default).x
    else (w.vertices.getD (w.vertices.length - 2) default).x
  let y2 := if atStart then (w.vertices.getD 1 default).y
    else (w.vertices.getD (w.vertices.length - 2) default).y
  let distance := P.hypot (x2 - x1) (y2 - y1)
  if distance > hlengthMerge then
    let xnew := hlengthMerge / distance * (x2 - x1) + x1
    let ynew := hlengthMerge / distance * (y2 - y1) + y1
    let v : VertexM := ⟨-1, xnew, ynew⟩
    match wayInsertVertex P w v (if atStart then 1 else -1) with
    | .error e => .error e
    | .ok (w', redoStart, redoEnd) =>
      let icr1 : List ℤ := if redoStart then [w'.parms.crossing.iStart] else []
      let icr2 : List ℤ := if redoEnd then [w'.parms.crossing.iEnd] else []
      .ok (hlengthMerge, w', [v], icr1 ++ icr2)
  else
    .ok (distance, w, [], [])

/-- `Connection.compute_offset`: the four outer boundary points of the
two ways at the shared vertex, averaged with weights given by the
opposite way's merge distance. -/
def computeOffset (P : Prims) (c : ConnM) : ConnM :=
  let corner := fun (w : WayM) (atStart : Bool) =>
    let x1 := if atStart then (w.vertices.getD 0 default).x
      else (w.vertices.getD (w.vertices.length - 1) default).x
    let y1 := if atStart then (w.vertices.getD 0 default).y
      else (w.vertices.getD (w.vertices.length - 1) default).y
    let d := connDirection w atStart
    let xn := -d.2 / P.hypot d.1 d.2
    let yn := d.1 / P.hypot d.1 d.2
    let offset := if atStart then getPy w.parms.offset 0 0
      else -(getPy w.parms.offset (-1) 0)
    ( (x1 + xn * (offset + w.parms.hwidth), y1 + yn * (offset + w.parms.hwidth))
    , (x1 + xn * (offset - w.parms.hwidth), y1 + yn * (offset - w.parms.hwidth)) )
  let c1 := corner c.way1 c.atStart1
  let c2 := corner c.way2 c.atStart2
  let dsum := c.distance1 + c.distance2
  { c with
    xoffsetLeft := (c1.1.1 * c.distance2 + c2.2.1 * c.distance1) / dsum
    xoffsetRight := (c1.2.1 * c.distance2 + c2.1.1 * c.distance1) / dsum
    yoffsetLeft := (c1.1.2 * c.distance2 + c2.2.2 * c.distance1) / dsum
    yoffsetRight := (c1.2.2 * c.distance2 + c2.1.2 * c.distance1) / dsum }

/-- `Connection.set_offset`: write the shared boundary points onto each
way's connection slots (left/right swapped according to which end meets). -/
def setOffset (c : ConnM) : ConnM :=
  let w1 :=
    if c.atStart1 then
      { c.way1 with parms := { c.way1.parms with connection :=
        { c.way1.parms.connection with
          xLeftStart := c.xoffsetLeft, xRightStart := c.xoffsetRight
          yLeftStart := c.yoffsetLeft, yRightStart := c.yoffsetRight } } }
    else
      { c.way1 with parms := { c.way1.parms with connection :=
        { c.way1.parms.connection with
          xLeftEnd := c.xoffsetRight, xRightEnd := c.xoffsetLeft
          yLeftEnd := c.yoffsetRight, yRightEnd := c.yoffsetLeft } } }
  let w2 :=
    if c.atStart2 then
      { c.way2 with parms := { c.way2.parms with connection :=
        { c.way2.parms.connection with
          xLeftStart := c.xoffsetRight, xRightStart := c.xoffsetLeft
          yLeftStart := c.yoffsetRight, yRightStart := c.yoffsetLeft } } }
    else
      { c.way2 with parms := { c.way2.parms with connection :=
        { c.way2.parms.connection with
          xLeftEnd := c.xoffsetLeft, xRightEnd := c.xoffsetRight
          yLeftEnd := c.yoffsetLeft, yRightEnd := c.yoffsetRight } } }
  { c with way1 := w1, way2 := w2 }

/-- `Connection.process()`: with a delegate crossing, process it and
return no new vertices and no crossings to re-process; otherwise run the
offset check, the merge-distance pass (which may synthesize vertices),
and the shared-boundary computation and write-back. -/
def connectionProcess (P : Prims) (c : ConnM) :
    Except Unit ((List VertexM × List ℤ) × ConnM) :=
  match c.crossing with
  | some cs => .ok (([], []), { c with crossing := some (crossingProcess P cs) })
  | none =>
    let c1 := checkForOffset P c
    match computeSingleDistance P c1.hlengthMerge c1.atStart1 c1.way1 with
    | .error e => .error e
    | .ok (d1, w1', v1, icr1) =>
      match computeSingleDistance P c1.hlengthMerge c1.atStart2 c1.way2 with
      | .error e => .error e
      | .ok (d2, w2', v2, icr2) =>
        let c2 := { c1 with way1 := w1', way2 := w2', distance1 := d1, distance2 := d2 }
        let c3 := setOffset (computeOffset P c2)
        .ok ((v1 ++ v2, icr1 ++ icr2), c3)

/-! ## Claims C3 and C7 -/

/-- The crossing link write does not touch the way's vertices. -/
theorem crossingLinkWay_vertices (i v : ℤ) (w : WayM) :
    (crossingLinkWay i v w).vertices = w.vertices := by
  unfold crossingLinkWay
  split <;> rfl

/-- Hence it does not change the way's outward directions. -/
theorem connDirection_crossingLinkWay (i v : ℤ) (w : WayM) (at1 : Bool) :
    connDirection (crossingLinkWay i v w) at1 = connDirection w at1 := by
  unfold connDirection
  rw [crossingLinkWay_vertices]

/-- The delegate decision of `Connection.__init__`: a crossing is built
exactly when the turn angle is at most `3π/4`, and the stored angle is
the arccos of the normalized dot product of the two outward directions
(for an arccos that is nonnegative, as the real one is, the `np.abs` in
the source is the identity). -/
theorem connectionFinish_delegate (P : Prims) (hacos : ∀ x, 0 ≤ P.acos x)
    (index : ℤ) (w1 w2 : WayM) (at1 at2 : Bool) :
    ((connectionFinish P index w1 w2 at1 at2).1.crossing.isSome ↔
      (connectionFinish P index w1 w2 at1 at2).1.angle ≤ 3 * P.pi / 4) ∧
    (connectionFinish P index w1 w2 at1 at2).1.angle =
      P.acos (((connDirection (connectionFinish P index w1 w2 at1 at2).1.way1
          (connectionFinish P index w1 w2 at1 at2).1.atStart1).1 *
        (connDirection (connectionFinish P index w1 w2 at1 at2).1.way2
          (connectionFinish P index w1 w2 at1 at2).1.atStart2).1 +
        (connDirection (connectionFinish P index w1 w2 at1 at2).1.way1
          (connectionFinish P index w1 w2 at1 at2).1.atStart1).2 *
        (connDirection (connectionFinish P index w1 w2 at1 at2).1.way2
          (connectionFinish P index w1 w2 at1 at2).1.atStart2).2) /
      (P.hypot (connDirection (connectionFinish P index w1 w2 at1 at2).1.way1
          (connectionFinish P index w1 w2 at1 at2).1.atStart1).1
        (connDirection (connectionFinish P index w1 w2 at1 at2).1.way1
          (connectionFinish P index w1 w2 at1 at2).1.atStart1).2 *
       P.hypot (connDirection (connectionFinish P index w1 w2 at1 at2).1.way2
          (connectionFinish P index w1 w2 at1 at2).1.atStart2).1
        (connDirection (connectionFinish P index w1 w2 at1 at2).1.way2
          (connectionFinish P index w1 w2 at1 at2).1.atStart2).2)) := by
  constructor
  · simp only [connectionFinish]
    split
    · next h =>
      rw [abs_of_nonneg (hacos _)] at h
      simpa using h
    · next h =>
      rw [abs_of_nonneg (hacos _)] at h
      simpa using h
  · simp only [connectionFinish]
    split
    · simp only [connDirection_crossingLinkWay]
    · rfl

/-- C3: constructing a `Connection` from two ways none of whose four
start/end vertex-id combinations coincide raises
`InvalidConnectionError`, and the error is raised before any connection
link slot is written (in this embedding the error branch returns no
updated ways at all); when one of the four combinations coincides,
construction does not raise this error. -/
theorem claim_C3_invalid_connection (P : Prims) (idx : ℤ) (wayA wayB : WayM)
    (_hA : wayA.ivs ≠ []) (_hB : wayB.ivs ≠ []) :
    (¬(wayA.ivs.headI = wayB.ivs.headI ∨ wayA.ivs.getLastI = wayB.ivs.headI ∨
        wayA.ivs.headI = wayB.ivs.getLastI ∨ wayA.ivs.getLastI = wayB.ivs.getLastI) →
      connectionInit P idx wayA wayB = .error ()) ∧
    ((wayA.ivs.headI = wayB.ivs.headI ∨ wayA.ivs.getLastI = wayB.ivs.headI ∨
        wayA.ivs.headI = wayB.ivs.getLastI ∨ wayA.ivs.getLastI = wayB.ivs.getLastI) →
      ∃ c a b, connectionInit P idx wayA wayB = .ok (c, a, b)) := by
  constructor
  · intro hnone
    push_neg at hnone
    obtain ⟨h1, h2, h3, h4⟩ := hnone
    simp only [connectionInit]
    by_cases hsw : wayA.options.nlanes > wayB.options.nlanes
    · simp only [if_pos hsw]
      rw [if_neg (fun h => h1 h.symm), if_neg (fun h => h3 h.symm),
        if_neg (fun h => h2 h.symm), if_neg (fun h => h4 h.symm)]
    · simp only [if_neg hsw]
      rw [if_neg h1, if_neg h2, if_neg h3, if_neg h4]
  · intro hsome
    simp only [connectionInit]
    by_cases hsw : wayA.options.nlanes > wayB.options.nlanes
    · simp only [if_pos hsw]
      by_cases h1 : wayB.ivs.headI = wayA.ivs.headI
      · rw [if_pos h1]
        exact ⟨_, _, _, rfl⟩
      · rw [if_neg h1]
        by_cases h2 : wayB.ivs.getLastI = wayA.ivs.headI
        · rw [if_pos h2]
          exact ⟨_, _, _, rfl⟩
        · rw [if_neg h2]
          by_cases h3 : wayB.ivs.headI = wayA.ivs.getLastI
          · rw [if_pos h3]
            exact ⟨_, _, _, rfl⟩
          · rw [if_neg h3]
            by_cases h4 : wayB.ivs.getLastI = wayA.ivs.getLastI
            · rw [if_pos h4]
              exact ⟨_, _, _, rfl⟩
            · exact absurd hsome (by
                push_neg
                exact ⟨fun h => h1 h.symm, fun h => h3 h.symm,
                  fun h => h2 h.symm, fun h => h4 h.symm⟩)
    · simp only [if_neg hsw]
      by_cases h1 : wayA.ivs.headI = wayB.ivs.headI
      · rw [if_pos h1]
        exact ⟨_, _, _, rfl⟩
      · rw [if_neg h1]
        by_cases h2 : wayA.ivs.getLastI = wayB.ivs.headI
        · rw [if_pos h2]
          exact ⟨_, _, _, rfl⟩
        · rw [if_neg h2]
          by_cases h3 : wayA.ivs.headI = wayB.ivs.getLastI
          · rw [if_pos h3]
            exact ⟨_, _, _, rfl⟩
          · rw [if_neg h3]
            by_cases h4 : wayA.ivs.getLastI = wayB.ivs.getLastI
            · rw [if_pos h4]
              exact ⟨_, _, _, rfl⟩
            · exact absurd hsome (by push_neg; exact ⟨h1, h2, h3, h4⟩)

/-- Concrete ways for the connection witnesses: `connWayA` and
`connWayB` share the vertex id 1 (end of A, start of B); `connWayFar`
shares no endpoint with `connWayA`. -/
def connWayA : WayM := mkWay [⟨0, 0, 0⟩, ⟨1, 1, 0⟩] {}

/-- See `connWayA`. -/
def connWayB : WayM := mkWay [⟨1, 1, 0⟩, ⟨2, 2, 0⟩] {}

/-- See `connWayA`. -/
def connWayFar : WayM := mkWay [⟨5, 5, 5⟩, ⟨6, 6, 5⟩] {}

/-- Witness for C3: the error case at disjoint ways and the no-error
case at ways sharing an endpoint. -/
theorem claim_C3_invalid_connection_witness :
    connectionInit prims0 0 connWayA connWayFar = .error () ∧
    ∃ c a b, connectionInit prims0 0 connWayA connWayB = .ok (c, a, b) := by
  constructor
  · exact (claim_C3_invalid_connection prims0 0 connWayA connWayFar
      (by simp [connWayA, mkWay]) (by simp [connWayFar, mkWay])).1
      (by simp only [connWayA, connWayFar, mkWay]; decide)
  · exact (claim_C3_invalid_connection prims0 0 connWayA connWayB
      (by simp [connWayA, mkWay]) (by simp [connWayB, mkWay])).2
      (by simp only [connWayA, connWayB, mkWay]; decide)

/-- C7: a successfully constructed `Connection` holds an internal
delegate crossing exactly when its turn angle — the arccos of the
normalized dot product of the two ways' outward directions at the
shared vertex — is at most `3π/4`; and with a delegate, `process()`
only processes that crossing and returns an empty vertex list and an
empty list of crossing ids to re-process. -/
theorem claim_C7_sharp_turn_delegate (P : Prims) (hacos : ∀ x, 0 ≤ P.acos x)
    (idx : ℤ) (wayA wayB : WayM) (c : ConnM) (a b : WayM)
    (hok : connectionInit P idx wayA wayB = .ok (c, a, b)) :
    (c.crossing.isSome ↔ c.angle ≤ 3 * P.pi / 4) ∧
    c.angle = P.acos (((connDirection c.way1 c.atStart1).1 *
        (connDirection c.way2 c.atStart2).1 +
        (connDirection c.way1 c.atStart1).2 * (connDirection c.way2 c.atStart2).2) /
      (P.hypot (connDirection c.way1 c.atStart1).1 (connDirection c.way1 c.atStart1).2 *
       P.hypot (connDirection c.way2 c.atStart2).1 (connDirection c.way2 c.atStart2).2)) ∧
    (∀ cs, c.crossing = some cs →
      connectionProcess P c =
        .ok ((([] : List VertexM), ([] : List ℤ)),
          { c with crossing := some (crossingProcess P cs) })) := by
  have hmain : ∃ w1 w2 at1 at2 x y,
      Except.ok ((connectionFinish P idx w1 w2 at1 at2).1, x, y)
        = (Except.ok (c, a, b) : Except Unit (ConnM × WayM × WayM)) := by
    simp only [connectionInit] at hok
    by_cases hsw : wayA.options.nlanes > wayB.options.nlanes
    · simp only [if_pos hsw] at hok
      repeat' split at hok
      all_goals first
        | exact ⟨_, _, _, _, _, _, hok⟩
        | exact absurd hok (by simp)
    · simp only [if_neg hsw] at hok
      repeat' split at hok
      all_goals first
        | exact ⟨_, _, _, _, _, _, hok⟩
        | exact absurd hok (by simp)
  obtain ⟨w1, w2, at1, at2, x, y, hinj⟩ := hmain
  injection hinj with h2
  have hc : c = (connectionFinish P idx w1 w2 at1 at2).1 :=
    (congrArg Prod.fst h2).symm
  subst hc
  have h := connectionFinish_delegate P hacos idx w1 w2 at1 at2
  exact ⟨h.1, h.2, fun cs hcs => by simp only [connectionProcess, hcs]⟩

/-! ## RoadNetwork (road_network.py)

`RoadNetwork.__init__` snapshots `parms.ivs` (the vertex ids in list
order), fills the vertex/edge incidence matrix `mat_edges` — whose rows
are indexed by the POSITION `parms.ivs.index(id)` of a vertex id — sums
it into `n_edges_per_vertex`, and then runs `split_ways`,
`construct_crossings` and `construct_connections` in that order.  numpy
integer indexing wraps a negative index once and raises `IndexError`
out of range (`npIndex`); `list.index` raises `ValueError` on a missing
id (both raises are the `Except Unit` failure). -/

/-- The edge list: the consecutive vertex-id pairs of every way, in way
order (`zip(way.ivs[:-1], way.ivs[1:])`). -/
def rnEdges (ways : List WayM) : List (ℤ × ℤ) :=
  ways.foldr (fun w acc => w.ivs.zip w.ivs.tail ++ acc) []

/-- `n_edges_per_vertex[p]` for a vertex POSITION `p`: the number of
`mat_edges` columns with a `True` cell in row `p`, i.e. the edges one of
whose endpoint ids has `p` as its first position in `parms.ivs` (a
self-loop edge sets its single cell twice, so it counts once, exactly
as the boolean matrix sums). -/
def rnDegrees (ivsList : List ℤ) (ways : List WayM) (p : ℕ) : ℕ :=
  ((rnEdges ways).filter
    (fun e => ivsList.indexOf e.1 == p || ivsList.indexOf e.2 == p)).length

/-- The whole `n_edges_per_vertex` vector, one entry per vertex
position. -/
def rnDegreeList (vertices : List VertexM) (ways : List WayM) : List ℕ :=
  (List.range vertices.length).map (rnDegrees (vertices.map VertexM.idx) ways)

/-- numpy integer indexing into a 1-d array: a negative index wraps
once, an out-of-range index raises `IndexError`. -/
def npIndex (arr : List ℕ) (i : ℤ) : Except Unit ℕ :=
  if 0 ≤ i ∧ i < (arr.length : ℤ) then .ok (arr.getD i.toNat 0)
  else if -(arr.length : ℤ) ≤ i ∧ i < 0 then .ok (arr.getD (i + arr.length).toNat 0)
  else .error ()

/-- The inner `for` of `split_ways` over one way's interior positions:
the first interior position whose vertex's entry in
`n_edges_per_vertex` differs from 2.  The source reads
`n_edges_per_vertex[way.ivs[i_vertex]]` — it indexes the degree vector
by the vertex ID, although the vector is laid out by vertex POSITION in
`parms.ivs`. -/
def splitFindGo (degs : List ℕ) (ivs : List ℤ) : List ℕ → Except Unit (Option ℕ)
  | [] => .ok none
  | i :: rest =>
    match npIndex degs (ivs.getD i 0) with
    | .error e => .error e
    | .ok d => if d ≠ 2 then .ok (some i) else splitFindGo degs ivs rest

/-- `range(1, len(way.ivs) - 1)` fed to `splitFindGo`. -/
def splitFind (degs : List ℕ) (ivs : List ℤ) : Except Unit (Option ℕ) :=
  splitFindGo degs ivs (List.range' 1 (ivs.length - 2))

/-- The `while` loop of `split_ways`: `done` holds the ways behind the
cursor `i_way`, `todo` the ways from the cursor on.  Splitting a way
truncates it in place and appends the tail to the very end of the way
list.  Each split strictly decreases the total interior-vertex count
ahead of the cursor, so the fuel `Σ (len(ivs) + 1) + 1` supplied by
`splitWays` is never exhausted; the exhaustion branch returns an
(unreachable) error. -/
def splitWaysFuel (degs : List ℕ) : ℕ → List WayM → List WayM → Except Unit (List WayM)
  | 0, _, _ => .error ()
  | _ + 1, done, [] => .ok done
  | fuel + 1, done, w :: rest =>
    match splitFind degs w.ivs with
    | .error e => .error e
    | .ok none => splitWaysFuel degs fuel (done ++ [w]) rest
    | .ok (some i) =>
      splitWaysFuel degs fuel (done ++ [(waySplit w i).1]) (rest ++ [(waySplit w i).2])

/-- `RoadNetwork.split_ways`. -/
def splitWays (degs : List ℕ) (ways : List WayM) : Except Unit (List WayM) :=
  splitWaysFuel degs (ways.foldl (fun a w => a + w.ivs.length + 1) 1) [] ways

/-- One crossing of the network: its index, its hub vertex id and its
geometry state. -/
structure CrossingRec where
  idx : ℤ
  vertexIdx : ℤ
  state : CrossingState

/-- `RoadNetwork.construct_crossings`: walk the vertex positions; at
each position with (position-indexed) degree `> 2`, build one
`Crossing` over the ways whose `ivs` contain the vertex id —
`Crossing.__init__` registering itself on each of those shared ways
(`crossingLinkWay`). -/
def constructCrossingsGo (P : Prims) (degs : List ℕ) (vertices : List VertexM)
    (ivsList : List ℤ) : List ℕ → List WayM → ℤ → List CrossingRec × List WayM
  | [], ways, _ => ([], ways)
  | p :: rest, ways, n =>
    if degs.getD p 0 > 2 then
      let idv := ivsList.getD p 0
      let linked := ways.map (fun w => if w.ivs.contains idv then crossingLinkWay n idv w else w)
      let incident := linked.filter (fun w => w.ivs.contains idv)
      let cs := mkCrossing P (vertices.getD p default) incident {}
      let r := constructCrossingsGo P degs vertices ivsList rest linked (n + 1)
      (⟨n, idv, cs⟩ :: r.1, r.2)
    else constructCrossingsGo P degs vertices ivsList rest ways n

/-- The first other way sharing the given endpoint id
(`way2.ivs[0] == iv or way2.ivs[-1] == iv`), with its position. -/
def findPartner (ways : List WayM) (i : ℕ) (idv : ℤ) : Option (ℕ × WayM) :=
  ways.enum.find? (fun p =>
    p.1 != i && (p.2.ivs.headI == idv || p.2.ivs.getLastI == idv))

/-- One endpoint check of `construct_connections` for the way at
position `i`: when the endpoint vertex has (correctly position-indexed,
via `parms.ivs.index`) degree 2 and the way's matching connection slot
is still `-1`, construct a `Connection` with the first partner way
sharing the endpoint id; a delegate crossing receives the next fresh
crossing index.  `parms.ivs.index` raises on a missing id. -/
def connEndpoint (P : Prims) (degs : List ℕ) (ivsList : List ℤ) (atStart : Bool)
    (i : ℕ) (st : List WayM × List ConnM × ℤ × ℤ) :
    Except Unit (List WayM × List ConnM × ℤ × ℤ) :=
  let (ways, conns, nConn, nCross) := st
  let w := ways.getD i default
  let idv := if atStart then w.ivs.headI else w.ivs.getLastI
  let slot := if atStart then w.parms.connection.iStart else w.parms.connection.iEnd
  if ivsList.contains idv then
    if degs.getD (ivsList.indexOf idv) 0 = 2 ∧ slot = -1 then
      match findPartner ways i idv with
      | none => .ok st
      | some (j, w2) =>
        match connectionInit P nConn w w2 with
        | .error e => .error e
        | .ok (c, wA, wB) =>
          let c' := if c.crossing.isSome then { c with crossingIdx := nCross } else c
          let nCross' := if c.crossing.isSome then nCross + 1 else nCross
          .ok ((ways.set i wA).set j wB, conns ++ [c'], nConn + 1, nCross')
    else .ok st
  else .error ()

/-- The `for` loop of `construct_connections`: both endpoint checks for
every way position, threading the way list, the connection list, and
the connection and crossing counters. -/
def constructConnectionsGo (P : Prims) (degs : List ℕ) (ivsList : List ℤ) :
    List ℕ → List WayM × List ConnM × ℤ × ℤ →
      Except Unit (List WayM × List ConnM × ℤ × ℤ)
  | [], st => .ok st
  | i :: rest, st =>
    match connEndpoint P degs ivsList true i st with
    | .error e => .error e
    | .ok st1 =>
      match connEndpoint P degs ivsList false i st1 with
      | .error e => .error e
      | .ok st2 => constructConnectionsGo P degs ivsList rest st2

/-- A constructed `RoadNetwork`. -/
structure RoadNetworkM where
  ways : List WayM
  vertices : List VertexM
  ivsList : List ℤ
  degs : List ℕ
  crossings : List CrossingRec
  connections : List ConnM

/-- `RoadNetwork.__init__` (geometry part): the vertex-id snapshot, the
position-indexed degree vector, way splitting, crossing construction
and connection construction.  An edge endpoint id missing from the
vertex list makes `parms.ivs.index` raise while `mat_edges` is being
filled, checked up front here. -/
def rnInit (P : Prims) (ways0 : List WayM) (vertices : List VertexM) :
    Except Unit RoadNetworkM :=
  let ivsList := vertices.map VertexM.idx
  if (rnEdges ways0).all (fun e => ivsList.contains e.1 && ivsList.contains e.2) then
    let degs := rnDegreeList vertices ways0
    match splitWays degs ways0 with
    | .error e => .error e
    | .ok ways1 =>
      let cr := constructCrossingsGo P degs vertices ivsList
        (List.range vertices.length) ways1 0
      match constructConnectionsGo P degs ivsList (List.range cr.2.length)
          (cr.2, [], 0, (cr.1.length : ℤ)) with
      | .error e => .error e
      | .ok st =>
        .ok { ways := st.1, vertices := vertices, ivsList := ivsList
              degs := degs, crossings := cr.1, connections := st.2.1 }
  else .error ()

/-- The failing input for C6.  Vertex ids are a permutation of the
positions: position 1 holds the hub vertex id 4 (three incident edges)
and position 4 holds vertex id 1 (the base of the loop way, two
incident edges). -/
def c6Vertices : List VertexM :=
  [⟨0, 0, 0⟩, ⟨4, 1, 0⟩, ⟨2, 2, 0⟩, ⟨3, 1, 1⟩, ⟨1, 5, 5⟩, ⟨5, 6, 5⟩, ⟨6, 6, 6⟩]

/-- See `c6Vertices`: a way through the hub (id 4 interior), a spur
into the hub, and a loop way based at vertex id 1. -/
def c6Ways : List WayM :=
  [mkWay [⟨0, 0, 0⟩, ⟨4, 1, 0⟩, ⟨2, 2, 0⟩] {},
   mkWay [⟨3, 1, 1⟩, ⟨4, 1, 0⟩] {},
   mkWay [⟨1, 5, 5⟩, ⟨5, 6, 5⟩, ⟨6, 6, 6⟩, ⟨1, 5, 5⟩] {}]

/-- C6 (code bug): the spec's invariant — after construction every
interior vertex of every resulting way has edge degree exactly 2 —
fails, because `split_ways` reads
`n_edges_per_vertex[way.ivs[i_vertex]]`, indexing the degree vector by
the vertex ID while the vector is laid out by vertex POSITION in
`parms.ivs` (the layout used both to build `mat_edges` and by
`construct_crossings`/`construct_connections`).  On `c6Ways` over
`c6Vertices`, the hub vertex id 4 (position 1) has degree 3, but the
buggy read lands on position 4 (the loop base, degree 2), so the first
way is never split: construction succeeds with the way list unchanged,
one crossing and no connections, and the resulting way `[0, 4, 2]`
keeps the degree-3 vertex 4 in its interior. -/
theorem claim_C6_failing_eval :
    ((rnInit prims0 c6Ways c6Vertices).map
        (fun net => (net.ways.map WayM.ivs, net.crossings.length, net.connections.length))
      = .ok ([[0, 4, 2], [3, 4], [1, 5, 6, 1]], 1, 0)) ∧
    ([0, 4, 2] : List ℤ).getD 1 0 = 4 ∧
    rnDegrees (c6Vertices.map VertexM.idx) c6Ways
      ((c6Vertices.map VertexM.idx).indexOf 4) = 3 ∧
    (3 : ℕ) ≠ 2 := by
  refine ⟨rfl, rfl, by decide, by decide⟩

/-- Witness for C7 at the concrete sharing ways. -/
theorem claim_C7_sharp_turn_delegate_witness :
    ∃ (c : ConnM) (a b : WayM), connectionInit prims0 0 connWayA connWayB = .ok (c, a, b) ∧
      (c.crossing.isSome ↔ c.angle ≤ 3 * prims0.pi / 4) := by
  have hex : ∃ c a b, connectionInit prims0 0 connWayA connWayB = .ok (c, a, b) := by
    simp only [connectionInit, connWayA, connWayB, mkWay]
    norm_num
    exact ⟨_, _, _, rfl⟩
  obtain ⟨c, a, b, hok⟩ := hex
  exact ⟨c, a, b, hok,
    (claim_C7_sharp_turn_delegate prims0 (fun _ => le_refl 0) 0 connWayA connWayB
      c a b hok).1⟩

end TSR
